import Mathlib

/-!
# Heimdall: clerk commit handler and root-chain listener

A shallow embedding of

* `clerk/handler.go` : `handleMsgEventRecord`, the consensus-side transition that
  commits an event record exactly once;
* `bridge/setu/listener/rootchain.go` : `ProcessHeader`, the confirmation queue and
  the block cursor of the root-chain listener.

Go values are embedded as follows.  `uint64` is a `Nat` below `2 ^ 64`, and every
`uint64` operation that can wrap is written with an explicit `% 2 ^ 64`.  `*big.Int`
is an `Int`.  A Go result pair `(value, err)` is a Lean pair of an `Option` (a `nil`
pointer is `none`) and a `Bool` (`true` when `err != nil`).
-/

namespace Heimdall

/-! ## Machine integers and decimal strings -/

/-- The number of values of a Go `uint64`. -/
def uint64Size : Nat := 2 ^ 64

/-- Go `(*big.Int).Uint64()`: the low 64 bits of the absolute value. -/
def Uint64 (x : Int) : Nat := x.natAbs % uint64Size

/-- The value of a Go `int64` (and so of a `time.Duration`) computation whose unbounded
result is `x`: the result wraps into `-2 ^ 63 .. 2 ^ 63 - 1`. -/
def wrapInt64 (x : Int) : Int := (x + 2 ^ 63) % 2 ^ 64 - 2 ^ 63

/-- Go `(*big.Int).String()`: the decimal rendering, with a leading minus sign for a
negative number. -/
def bigString (x : Int) : String := x.repr

/-- The value of a decimal digit character, `none` for any other character. -/
def digitValue (c : Char) : Option Nat :=
  if 48 ≤ c.toNat ∧ c.toNat ≤ 57 then some (c.toNat - 48) else none

/-- The digit loop of Go `strconv.ParseUint` in base 10: left to right, failing on the
first character that is not a digit.  The accumulator is unbounded here; the 64-bit
range check is made by `ParseUint`. -/
def parseDigits : List Char → Nat → Option Nat
  | [], acc => some acc
  | c :: cs, acc =>
    match digitValue c with
    | some d => parseDigits cs (acc * 10 + d)
    | none => none

/-- Go `strconv.ParseUint(s, 10, 64)`: `none` stands for `err != nil` (empty input, a
character that is not a digit, or a value that does not fit in 64 bits). -/
def ParseUint (s : String) : Option Nat :=
  match s.data with
  | [] => none
  | cs =>
    match parseDigits cs 0 with
    | some n => if n < uint64Size then some n else none
    | none => none

/-! ## Clerk: data model -/

/-- Raw bytes (hashes, addresses, payloads). -/
abbrev Bytes := List Nat

/-- The fields of `types.MsgEventRecord` that the handler reads. -/
structure MsgEventRecord where
  TxHash : Bytes
  LogIndex : Nat
  ID : Nat
  ChainID : String
  deriving DecidableEq, Repr

/-- Modelled from the spec: `types.EventRecord` is declared outside src/.  The fields are
those of the spec's Event Record, `{id, txHash, logIndex, contractAddress, data, chainID}`. -/
structure EventRecord where
  ID : Nat
  Contract : Bytes
  Data : Bytes
  TxHash : Bytes
  LogIndex : Nat
  ChainID : String
  deriving DecidableEq, Repr

/-- Modelled from the spec: `types.NewEventRecord` is declared outside src/; it builds the
record from its six arguments, in the order of the call in the handler. -/
def NewEventRecord (txHash : Bytes) (logIndex : Nat) (id : Nat) (contract : Bytes)
    (data : Bytes) (chainID : String) : EventRecord :=
  { ID := id, Contract := contract, Data := data, TxHash := txHash, LogIndex := logIndex,
    ChainID := chainID }

/-- The part of a root-chain transaction receipt that the handler reads. -/
structure Receipt where
  BlockNumber : Int
  deriving DecidableEq, Repr

/-- The decoded `StateSynced` log: the on-chain id is a `*big.Int`. -/
structure StateSyncedEvent where
  Id : Int
  ContractAddress : Bytes
  Data : Bytes
  deriving DecidableEq, Repr

/-- The chain-manager parameters the handler reads through `k.chainKeeper.GetParams`. -/
structure Params where
  BorChainID : String
  TxConfirmationTime : Nat
  StateSenderAddress : Bytes

/-- Modelled from the spec: the clerk keeper's tables (clerk/keeper.go is outside src/).
Event records are keyed by id, record sequences by the decimal string of the sequence.
Each table is kept in insertion order. -/
structure Store where
  records : List EventRecord
  sequences : List String
  deriving DecidableEq, Repr

/-- The store before any commit. -/
def Store.empty : Store := { records := [], sequences := [] }

/-- Everything the handler reads that is not the clerk store: the block time of the
context, the chain parameters, the constant `hmTypes.DefaultLogIndexUnit` (declared
outside src/), the two contract-caller calls, and whether the keeper's record write
reports an error. -/
structure Env where
  BlockTime : Nat
  params : Params
  DefaultLogIndexUnit : Int
  GetConfirmedTxReceipt : Nat → Bytes → Nat → Option Receipt × Bool
  DecodeStateSyncedEvent : Bytes → Receipt → Nat → Option StateSyncedEvent × Bool
  setEventRecordErr : Store → EventRecord → Bool

/-- Modelled from the spec: `Keeper.HasEventRecord` (outside src/): an Event Record with
this id exists. -/
def HasEventRecord (st : Store) (id : Nat) : Bool :=
  st.records.any (fun r => r.ID == id)

/-- Modelled from the spec: `Keeper.SetEventRecord` (outside src/).  It persists the
record under its id (a key-value put: a record already under that key is replaced), or
reports an error (`none`) and writes nothing. -/
def SetEventRecord (env : Env) (st : Store) (record : EventRecord) : Option Store :=
  if env.setEventRecordErr st record then none
  else some { st with records := st.records.filter (fun r => r.ID != record.ID) ++ [record] }

/-- Modelled from the spec: `Keeper.HasRecordSequence` (outside src/): the sequence was
already recorded. -/
def HasRecordSequence (st : Store) (sequence : String) : Bool :=
  decide (sequence ∈ st.sequences)

/-- Modelled from the spec: `Keeper.SetRecordSequence` (outside src/): marks the sequence
as recorded (a key-value put, so a sequence already present stays as it is). -/
def SetRecordSequence (st : Store) (sequence : String) : Store :=
  if sequence ∈ st.sequences then st else { st with sequences := st.sequences ++ [sequence] }

/-! ## Clerk: results -/

/-- The errors the handler returns.  `ErrInvalidMsg` carries its format string and
arguments, because the handler uses it for two different failures. -/
inductive Error where
  | ErrEventRecordAlreadySynced
  | ErrInvalidBorChainID
  | ErrWaitForConfirmation (txConfirmationTime : Nat)
  | ErrInvalidMsg (format : String) (args : List Int)
  | ErrOldTx
  | ErrEventUpdate
  deriving DecidableEq, Repr

/-- The attribute keys of the record event (`types.AttributeKey...`, `sdk.AttributeKeyModule`). -/
inductive AttributeKey where
  | Module
  | RecordID
  | RecordContract
  | RecordTxHash
  | RecordTxLogIndex
  deriving DecidableEq, Repr

/-- An attribute value, kept as the value that the Go code renders to a string:
`types.AttributeValueCategory`, `strconv.FormatUint(n, 10)`, `Address.String()` and
`Hash.String()`. -/
inductive AttributeValue where
  | Category
  | FormatUint (n : Nat)
  | AddressString (a : Bytes)
  | HashString (h : Bytes)
  deriving DecidableEq, Repr

/-- The event types: `types.EventTypeRecord` is the only one emitted here. -/
inductive EventType where
  | Record
  deriving DecidableEq, Repr

/-- An `sdk.Event`. -/
structure Event where
  Kind : EventType
  Attributes : List (AttributeKey × AttributeValue)
  deriving DecidableEq, Repr

/-- An `sdk.Result`: `Code = none` is `CodeOK`. -/
structure Result where
  Code : Option Error
  Events : List Event
  deriving DecidableEq, Repr

/-- Go `err.Result()`: the result of an error carries no events. -/
def Error.Result (e : Error) : Result := { Code := some e, Events := [] }

/-- The result is `CodeOK`. -/
def Result.IsOK (r : Result) : Bool := r.Code.isNone

/-! ## Clerk: the handler -/

/-- The sequence of lines 66-67: `receipt.BlockNumber * DefaultLogIndexUnit + msg.LogIndex`,
computed on `big.Int`. -/
def sequenceOf (env : Env) (receipt : Receipt) (msg : MsgEventRecord) : Int :=
  receipt.BlockNumber * env.DefaultLogIndexUnit + (msg.LogIndex : Int)

/-- The event emitted on success (lines 95-104). -/
def recordEvent (msg : MsgEventRecord) (eventLog : StateSyncedEvent) : Event :=
  { Kind := EventType.Record
    Attributes :=
      [ (AttributeKey.Module, AttributeValue.Category),
        (AttributeKey.RecordID, AttributeValue.FormatUint msg.ID),
        (AttributeKey.RecordContract, AttributeValue.AddressString eventLog.ContractAddress),
        (AttributeKey.RecordTxHash, AttributeValue.HashString msg.TxHash),
        (AttributeKey.RecordTxLogIndex, AttributeValue.FormatUint msg.LogIndex) ] }

/-- The handler `handleMsgEventRecord` of clerk/handler.go.  It returns the `sdk.Result`
and the clerk store after the call.  The event manager of the context is the fresh one
that `NewHandler` installs before the call, so the events of a successful result are the
events emitted here. -/
def handleMsgEventRecord (env : Env) (st : Store) (msg : MsgEventRecord) : Result × Store :=
  -- check if event record exists
  if HasEventRecord st msg.ID then
    (Error.ErrEventRecordAlreadySynced.Result, st)
  -- check chain id
  else if env.params.BorChainID ≠ msg.ChainID then
    (Error.ErrInvalidBorChainID.Result, st)
  else
    -- get confirmed tx receipt
    match env.GetConfirmedTxReceipt env.BlockTime msg.TxHash env.params.TxConfirmationTime with
    | (some receipt, false) =>
      -- get event log
      match env.DecodeStateSyncedEvent env.params.StateSenderAddress receipt msg.LogIndex with
      | (some eventLog, false) =>
        -- check if message and event log matches
        if Uint64 eventLog.Id ≠ msg.ID then
          ((Error.ErrInvalidMsg "ID in message doesn't match with id in log. msgId %v stateIdFromTx %v"
            [(msg.ID : Int), eventLog.Id]).Result, st)
        else
          let sequence := sequenceOf env receipt msg
          -- check if incoming tx is older
          if HasRecordSequence st (bigString sequence) then
            (Error.ErrOldTx.Result, st)
          else
            let record := NewEventRecord msg.TxHash msg.LogIndex (Uint64 eventLog.Id)
              eventLog.ContractAddress eventLog.Data msg.ChainID
            -- save event into state
            match SetEventRecord env st record with
            | none => (Error.ErrEventUpdate.Result, st)
            | some st1 =>
              -- save record sequence
              let st2 := SetRecordSequence st1 (bigString sequence)
              ({ Code := none, Events := [recordEvent msg eventLog] }, st2)
      | _ =>
        ((Error.ErrInvalidMsg "Unable to fetch log for txHash" []).Result, st)
    | _ =>
      ((Error.ErrWaitForConfirmation env.params.TxConfirmationTime).Result, st)

/-- Modelled from the spec: `Keeper.GetEventRecord` (outside src/): the record stored
under the id, if any. -/
def GetEventRecord (st : Store) (id : Nat) : Option EventRecord :=
  st.records.find? (fun r => r.ID == id)

/-- The store after a successful commit of `msg` with receipt `receipt` and decoded log
`eventLog`: the two writes of lines 86 and 92. -/
def committedStore (env : Env) (st : Store) (msg : MsgEventRecord) (receipt : Receipt)
    (eventLog : StateSyncedEvent) : Store :=
  SetRecordSequence
    { st with records := st.records.filter (fun r => r.ID != Uint64 eventLog.Id) ++
        [NewEventRecord msg.TxHash msg.LogIndex (Uint64 eventLog.Id)
          eventLog.ContractAddress eventLog.Data msg.ChainID] }
    (bigString (sequenceOf env receipt msg))

/-! ## Clerk: the ordered checks, following the specification's words -/

/-- The six checks of the commit handler as the specification lists them, each with the
error it gives when it fails (`none` when it passes or cannot be evaluated because the
receipt or the log is missing).  Check 5 compares the on-chain id with the claimed id as
numbers. -/
def checkFailures (env : Env) (st : Store) (msg : MsgEventRecord) : List (Option Error) :=
  let fetched := env.GetConfirmedTxReceipt env.BlockTime msg.TxHash env.params.TxConfirmationTime
  let decoded := fun (receipt : Receipt) =>
    env.DecodeStateSyncedEvent env.params.StateSenderAddress receipt msg.LogIndex
  [ -- 1. a record with this id exists
    (if HasEventRecord st msg.ID then some Error.ErrEventRecordAlreadySynced else none),
    -- 2. the chain id differs from the configured one
    (if msg.ChainID ≠ env.params.BorChainID then some Error.ErrInvalidBorChainID else none),
    -- 3. the confirmed receipt is absent or its fetch errs
    (match fetched with
      | (some _, false) => none
      | _ => some (Error.ErrWaitForConfirmation env.params.TxConfirmationTime)),
    -- 4. the log is absent or fails to decode
    (match fetched with
      | (some receipt, false) =>
        (match decoded receipt with
          | (some _, false) => none
          | _ => some (Error.ErrInvalidMsg "Unable to fetch log for txHash" []))
      | _ => none),
    -- 5. the decoded log id differs from the claimed id
    (match fetched with
      | (some receipt, false) =>
        (match decoded receipt with
          | (some eventLog, false) =>
            if eventLog.Id ≠ (msg.ID : Int) then
              some (Error.ErrInvalidMsg
                "ID in message doesn't match with id in log. msgId %v stateIdFromTx %v"
                [(msg.ID : Int), eventLog.Id])
            else none
          | _ => none)
      | _ => none),
    -- 6. the sequence is already recorded
    (match fetched with
      | (some receipt, false) =>
        if HasRecordSequence st
            (bigString (receipt.BlockNumber * env.DefaultLogIndexUnit + (msg.LogIndex : Int)))
        then some Error.ErrOldTx else none
      | _ => none) ]

/-- The error of the first failing check in the fixed order, `none` when no check fails. -/
def firstFailingCheck (env : Env) (st : Store) (msg : MsgEventRecord) : Option Error :=
  (checkFailures env st msg).findSome? id

/-! ## Clerk: runs of the handler -/

/-- The store after handling the inputs one after the other; each invocation has its own
environment (block time, parameters, chain answers). -/
def run : Store → List (Env × MsgEventRecord) → Store
  | st, [] => st
  | st, i :: rest => run (handleMsgEventRecord i.1 st i.2).2 rest

/-- The invocations of a run that succeed, in order: the committed records. -/
def commits : Store → List (Env × MsgEventRecord) → List (Env × MsgEventRecord)
  | _, [] => []
  | st, i :: rest =>
    if (handleMsgEventRecord i.1 st i.2).1.IsOK then
      i :: commits (handleMsgEventRecord i.1 st i.2).2 rest
    else commits (handleMsgEventRecord i.1 st i.2).2 rest

/-- The sequence value the handler computes for an invocation (`none` when the chain
returns no receipt, in which case the handler fails before line 66). -/
def committedSequence (i : Env × MsgEventRecord) : Option Int :=
  match i.1.GetConfirmedTxReceipt i.1.BlockTime i.2.TxHash i.1.params.TxConfirmationTime with
  | (some receipt, _) => some (sequenceOf i.1 receipt i.2)
  | _ => none

/-! ## RootChainListener: confirmation queue and block cursor -/

/-- The fields of a root-chain header that the listener reads: `Number` is a `*big.Int`,
`Time` a `uint64`. -/
structure Header where
  Number : Int
  Time : Nat
  deriving DecidableEq, Repr

/-- The listener's mutable state: the header queue and the bytes stored under
`lastRootBlockKey` in the bridge storage (`none` when the key is absent). -/
structure RootChainListener where
  headerQueue : List Header
  lastRootBlock : Option String
  deriving DecidableEq, Repr

/-- What one `ProcessHeader` call reads from outside: the current time, the configured
confirmation time in seconds (both `uint64`), and whether `storageClient.Get` errs. -/
structure ProcessEnv where
  currentTime : Nat
  confirmationTime : Nat
  getErr : Bool
  deriving DecidableEq, Repr

/-- The flush loop of `ProcessHeader` (lines 105-116): pops headers from the front while
`h.Time+confirmationTime > currentTime` is false, the sum being a `uint64` sum.  It returns
the remaining queue and the `start` and `end` pointers. -/
def flushLoop (confirmationTime currentTime : Nat) :
    List Header → Option Int → Option Int → List Header × Option Int × Option Int
  | [], start, end_ => ([], start, end_)
  | h :: queue, start, end_ =>
    if (h.Time + confirmationTime) % uint64Size > currentTime then (h :: queue, start, end_)
    else
      flushLoop confirmationTime currentTime queue
        (match start with
          | none => some h.Number
          | some s => some s)
        (some h.Number)

/-- Lines 122-149 of `ProcessHeader`: the range to query for a confirmed `start`, `end`,
given the bytes stored under `lastRootBlockKey`; `none` when the storage read fails (the
early return of line 130).  The assignment of line 135 is overwritten by line 137. -/
def blockRange (stored : Option String) (getErr : Bool) (start end_ : Int) :
    Option (Int × Int) :=
  -- default fromBlock
  let fromBlock := start
  -- get last block from storage
  let fromStorage : Option Int :=
    match stored with
    | some lastBlockBytes =>
      if getErr then none
      else
        match ParseUint lastBlockBytes with
        | some result =>
          let _fromBlock : Int := if result > Uint64 fromBlock then (result : Int) else fromBlock
          some (((result + 1) % uint64Size : Nat) : Int)
        | none => some fromBlock
    | none => some fromBlock
  match fromStorage with
  | none => none
  | some fromBlock =>
    -- to block
    let toBlock := end_
    some (if toBlock < fromBlock then toBlock else fromBlock, toBlock)

/-- The method `ProcessHeader` of the root-chain listener.  It returns the listener state
after the call and the range handed to `queryAndBroadcastEvents` (`none` when the call
returns before line 155).  `end` is non-nil whenever `start` is, so the branch with
`start` set and `end` unset is never taken. -/
def ProcessHeader (penv : ProcessEnv) (rl : RootChainListener) (newHeader : Header) :
    RootChainListener × Option (Int × Int) :=
  -- adding into queue
  match flushLoop penv.confirmationTime penv.currentTime (rl.headerQueue ++ [newHeader])
      none none with
  | (queue, some start, some end_) =>
    match blockRange rl.lastRootBlock penv.getErr start end_ with
    | some (fromBlock, toBlock) =>
      -- set last block to storage, then query log
      ({ headerQueue := queue, lastRootBlock := some (bigString toBlock) },
        some (fromBlock, toBlock))
    | none => ({ rl with headerQueue := queue }, none)
  | (queue, _, _) => ({ rl with headerQueue := queue }, none)

/-- A left inverse of `bigString`. -/
def readBig (s : String) : Option Int :=
  match parseDigits s.data 0 with
  | some n => some (n : Int)
  | none =>
    match s.data with
    | _ :: cs => (parseDigits cs 0).map (fun n => -(n : Int))
    | [] => none

/-- The store agrees with a log of committed invocations: the stored records carry the
ids of the log, the recorded sequences are the decimal strings of the sequences of the
log, in the same order, and neither ids nor sequence strings repeat. -/
def StoreMatchesLog (st : Store) (log : List (Env × MsgEventRecord)) : Prop :=
  st.records.map (fun r => r.ID) = log.map (fun i => i.2.ID) ∧
  st.sequences.map some = log.map (fun i => (committedSequence i).map bigString) ∧
  (st.records.map (fun r => r.ID)).Nodup ∧
  st.sequences.Nodup

/-- The range of section 4.2 of the specification, in its words: `toBlock = end`;
`fromBlock = start` when no cursor exists, else `fromBlock = c + 1`; and when
`toBlock < fromBlock`, `fromBlock = toBlock`.  The arithmetic is on unbounded integers. -/
def specRange (cursor : Option Nat) (start end_ : Int) : Int × Int :=
  let toBlock := end_
  let fromBlock : Int :=
    match cursor with
    | none => start
    | some c => (c : Int) + 1
  (if toBlock < fromBlock then toBlock else fromBlock, toBlock)

/-! ## RootChainListener: log dispatch -/

/-- The part of a root-chain log (`types.Log`) that the listener reads: the topics and
the data.  The log is also the payload of a task (`json.Marshal(vLog)`). -/
structure Log where
  Topics : List Bytes
  Data : Bytes
  deriving DecidableEq, Repr

/-- A contract ABI (`abi.ABI`): its events, each with its name and its id (the topic). -/
structure ABI where
  Events : List (String × Bytes)
  deriving DecidableEq, Repr

/-- The fields that the listener reads from the event structs of
contracts/stakinginfo after `helper.UnpackLog`: `SignerPubkey` (`Staked`, `SignerChange`),
`ValidatorId` (`StakeUpdate`, `UnstakeInit`; a `*big.Int`, `none` when the pointer is
nil) and `Signer` (`TopUpFee`). -/
structure StakingEvent where
  SignerPubkey : Bytes
  ValidatorId : Option Int
  Signer : Bytes
  deriving DecidableEq, Repr

/-- The task signature built by `sendTaskWithDelay` and handed to the queue server: the
task name, the two string arguments, the retry count, and the delay that is added to
the current time to give the ETA (a `time.Duration`, an `int64` count of nanoseconds). -/
structure Task where
  Name : String
  eventName : String
  logBytes : Log
  RetryCount : Nat
  delay : Int
  deriving DecidableEq, Repr

/-- What `queryAndBroadcastEvents` reads from outside: the node's public key and address
(`helper.GetPubKey`, `helper.GetAddress`), the constant `util.TaskDelayBetweenEachVal`,
the answers of `util.CalculateTaskDelay` (active validator, rank delay) and
`util.IsEventSender`, the lookup `helper.EventByID` (the name of the event with that id,
`none` for nil), the content of the event struct after `helper.UnpackLog` together with
its error, the chain client's `FilterLogs` with its error, and the listener's `abis`.
The answers are the same throughout one call. -/
structure BroadcastEnv where
  GetPubKey : Bytes
  GetAddress : Bytes
  TaskDelayBetweenEachVal : Int
  CalculateTaskDelay : Bool × Int
  IsEventSender : Nat → Bool
  EventByID : ABI → Bytes → Option String
  UnpackLog : String → Log → StakingEvent × Bool
  FilterLogs : Int → Int → List Log × Bool
  abis : List ABI

/-- The effect of a piece of `queryAndBroadcastEvents`: the tasks submitted, in order, and
whether the Go code panicked (an index out of range or a nil pointer). -/
structure Broadcast where
  tasks : List Task
  panicked : Bool
  deriving DecidableEq, Repr

/-- Nothing submitted, no panic. -/
def Broadcast.nothing : Broadcast := { tasks := [], panicked := false }

/-- A run-time panic before anything is submitted. -/
def Broadcast.panic : Broadcast := { tasks := [], panicked := true }

/-- Sequential composition: the second part runs only when the first did not panic. -/
def Broadcast.andThen (a b : Broadcast) : Broadcast :=
  if a.panicked then a else { tasks := a.tasks ++ b.tasks, panicked := b.panicked }

/-- The method `sendTaskWithDelay`: the signature sent to the queue server (an error of
`SendTask` is only logged). -/
def sendTaskWithDelay (taskName eventName : String) (logBytes : Log) (delay : Int) :
    Broadcast :=
  { tasks := [{ Name := taskName, eventName := eventName, logBytes := logBytes,
                RetryCount := 3, delay := delay }],
    panicked := false }

/-- The `switch selectedEvent.Name` of `queryAndBroadcastEvents` (lines 190-256).  An
error of `helper.UnpackLog` is only logged, and the event struct is read as the call left
it. -/
def dispatchEvent (node : BroadcastEnv) (selectedEventName : String) (vLog : Log) :
    Broadcast :=
  -- current public key
  let pubkeyBytes := node.GetPubKey.drop 1
  -- the event struct after `helper.UnpackLog(rl.stakingInfoAbi, event, selectedEvent.Name, &vLog)`
  let event := (node.UnpackLog selectedEventName vLog).1
  -- `isCurrentValidator, delay := util.CalculateTaskDelay(rl.cliCtx)`
  let isCurrentValidator := node.CalculateTaskDelay.1
  let delay := node.CalculateTaskDelay.2
  match selectedEventName with
  | "NewHeaderBlock" =>
    sendTaskWithDelay "sendCheckpointAckToHeimdall" selectedEventName vLog 0
  | "Staked" =>
    if event.SignerPubkey = pubkeyBytes then
      -- topup has to be processed first before validator join. so adding delay.
      sendTaskWithDelay "sendValidatorJoinToHeimdall" selectedEventName vLog
        node.TaskDelayBetweenEachVal
    else if isCurrentValidator then
      sendTaskWithDelay "sendValidatorJoinToHeimdall" selectedEventName vLog
        (wrapInt64 (delay + node.TaskDelayBetweenEachVal))
    else Broadcast.nothing
  | "StakeUpdate" =>
    match event.ValidatorId with
    | none => Broadcast.panic
    | some validatorId =>
      if node.IsEventSender (Uint64 validatorId) then
        sendTaskWithDelay "sendStakeUpdateToHeimdall" selectedEventName vLog 0
      else if isCurrentValidator then
        sendTaskWithDelay "sendStakeUpdateToHeimdall" selectedEventName vLog delay
      else Broadcast.nothing
  | "SignerChange" =>
    if event.SignerPubkey = pubkeyBytes then
      sendTaskWithDelay "sendSignerChangeToHeimdall" selectedEventName vLog 0
    else if isCurrentValidator then
      sendTaskWithDelay "sendSignerChangeToHeimdall" selectedEventName vLog delay
    else Broadcast.nothing
  | "UnstakeInit" =>
    match event.ValidatorId with
    | none => Broadcast.panic
    | some validatorId =>
      if node.IsEventSender (Uint64 validatorId) then
        sendTaskWithDelay "sendUnstakeInitToHeimdall" selectedEventName vLog 0
      else if isCurrentValidator then
        sendTaskWithDelay "sendUnstakeInitToHeimdall" selectedEventName vLog delay
      else Broadcast.nothing
  | "StateSynced" =>
    if isCurrentValidator then
      sendTaskWithDelay "sendStateSyncedToHeimdall" selectedEventName vLog delay
    else Broadcast.nothing
  | "TopUpFee" =>
    if event.Signer = node.GetAddress then
      sendTaskWithDelay "sendTopUpFeeToHeimdall" selectedEventName vLog 0
    else if isCurrentValidator then
      sendTaskWithDelay "sendTopUpFeeToHeimdall" selectedEventName vLog delay
    else Broadcast.nothing
  | _ => Broadcast.nothing

/-- The inner loop of `queryAndBroadcastEvents` (lines 185-258): every ABI of the list,
in order, is asked for the event with the topic, and every ABI that has one dispatches
the log. -/
def processABIs (node : BroadcastEnv) (topic : Bytes) (vLog : Log) : List ABI → Broadcast
  | [] => Broadcast.nothing
  | abiObject :: rest =>
    (match node.EventByID abiObject topic with
      | some selectedEventName => dispatchEvent node selectedEventName vLog
      | none => Broadcast.nothing).andThen (processABIs node topic vLog rest)

/-- The body of the outer loop (lines 184-258) for one log: `vLog.Topics[0]` panics when
the log has no topic. -/
def processLog (node : BroadcastEnv) (vLog : Log) : Broadcast :=
  match vLog.Topics with
  | [] => Broadcast.panic
  | topic :: _ => processABIs node topic vLog node.abis

/-- The outer loop of `queryAndBroadcastEvents` (line 183). -/
def processLogs (node : BroadcastEnv) : List Log → Broadcast
  | [] => Broadcast.nothing
  | vLog :: rest => (processLog node vLog).andThen (processLogs node rest)

/-- The method `queryAndBroadcastEvents`: when `FilterLogs` errs the call returns without
submitting anything. -/
def queryAndBroadcastEvents (node : BroadcastEnv) (fromBlock toBlock : Int) : Broadcast :=
  -- get logs from rootchain by filter
  match node.FilterLogs fromBlock toBlock with
  | (_, true) => Broadcast.nothing
  | (logs, false) => processLogs node logs

/-- One header tick: `ProcessHeader` together with its call of `queryAndBroadcastEvents`
at line 155.  It returns the listener state after the call, the range queried (`none`
when the call returns before line 155) and what the query submitted. -/
def ProcessHeaderAndBroadcast (penv : ProcessEnv) (node : BroadcastEnv) (rl : RootChainListener)
    (newHeader : Header) : RootChainListener × Option (Int × Int) × Broadcast :=
  match ProcessHeader penv rl newHeader with
  | (rl1, some (fromBlock, toBlock)) =>
    (rl1, some (fromBlock, toBlock), queryAndBroadcastEvents node fromBlock toBlock)
  | (rl1, none) => (rl1, none, Broadcast.nothing)

/-- The ranges queried by a run of header ticks, one entry for each tick (`none` for a tick
that queries nothing), every tick with its own time and storage answers. -/
def cycles : RootChainListener → List (ProcessEnv × Header) → List (Option (Int × Int))
  | _, [] => []
  | rl, step :: rest =>
    (ProcessHeader step.1 rl step.2).2 :: cycles (ProcessHeader step.1 rl step.2).1 rest

/-- The queried range, if any, ends above `c`, and its end is below `2 ^ 64 - 1`. -/
def rangeEndsAbove (c : Int) : Option (Int × Int) → Bool
  | some (_, toBlock) => decide (c < toBlock ∧ toBlock + 1 < 2 ^ 64)
  | none => true

/-- The queried range, if any, starts above `c`. -/
def rangeStartsAbove (c : Int) : Option (Int × Int) → Bool
  | some (fromBlock, _) => decide (c < fromBlock)
  | none => true

/-- The subject test of section 4.4 of the specification for `StakeUpdate` and
`UnstakeInit`, in its words: the validator id of the event, as a number, is the id of the
validator that this node is.  Validator ids of the node are `uint64` values, for which
`util.IsEventSender` answers. -/
def isSubjectValidator (node : BroadcastEnv) (validatorId : Int) : Bool :=
  decide (0 ≤ validatorId ∧ validatorId < 2 ^ 64) && node.IsEventSender validatorId.toNat

/-- The relay rule of section 4.4 of the specification, in its words: the subject of the
event relays immediately (delay 0); otherwise an active validator relays at its rank
delay; otherwise nothing is relayed. -/
def subjectPolicy (isSubject : Bool) (node : BroadcastEnv) (taskName eventName : String)
    (vLog : Log) : List Task :=
  if isSubject then
    [{ Name := taskName, eventName := eventName, logBytes := vLog, RetryCount := 3,
       delay := 0 }]
  else if node.CalculateTaskDelay.1 then
    [{ Name := taskName, eventName := eventName, logBytes := vLog, RetryCount := 3,
       delay := node.CalculateTaskDelay.2 }]
  else []

/-- The log dispatched once for each event name of the list, in order. -/
def dispatchAll (node : BroadcastEnv) (vLog : Log) : List String → Broadcast
  | [] => Broadcast.nothing
  | name :: rest => (dispatchEvent node name vLog).andThen (dispatchAll node vLog rest)

/-! ## Concrete inputs -/

/-- Chain parameters of the sample environment. -/
def sampleParams : Params :=
  { BorChainID := "15001", TxConfirmationTime := 60, StateSenderAddress := [1] }

/-- A sample environment: the receipt of transaction hash `[b]` is in block `b`, the log
at index `i` of block `b` carries the on-chain id `b + i`, and record writes succeed. -/
def sampleEnv : Env :=
  { BlockTime := 1000
    params := sampleParams
    DefaultLogIndexUnit := 100000
    GetConfirmedTxReceipt := fun _ txHash _ =>
      match txHash with
      | [b] => (some { BlockNumber := (b : Int) }, false)
      | _ => (none, false)
    DecodeStateSyncedEvent := fun _ receipt logIndex =>
      (some { Id := receipt.BlockNumber + (logIndex : Int), ContractAddress := [9], Data := [7] },
        false)
    setEventRecordErr := fun _ _ => false }

/-- The sample environment with a record write that reports an error. -/
def failingWriteEnv : Env := { sampleEnv with setEventRecordErr := fun _ _ => true }

/-- The sample environment with a log whose on-chain id is `2 ^ 64 + 5`. -/
def wideIdEnv : Env :=
  { sampleEnv with
    DecodeStateSyncedEvent := fun _ _ _ =>
      (some { Id := 18446744073709551621, ContractAddress := [9], Data := [7] }, false) }

/-- A message that the sample environment accepts: id 11, block 10, log index 1. -/
def sampleMsg : MsgEventRecord :=
  { TxHash := [10], LogIndex := 1, ID := 11, ChainID := "15001" }

/-- A second message that the sample environment accepts: id 22, block 20, log index 2. -/
def sampleMsg2 : MsgEventRecord :=
  { TxHash := [20], LogIndex := 2, ID := 22, ChainID := "15001" }

/-- A message claiming id 5. -/
def sampleMsg5 : MsgEventRecord :=
  { TxHash := [10], LogIndex := 1, ID := 5, ChainID := "15001" }

/-- A penv at time 1000 with a confirmation time of 60 seconds and a working storage. -/
def samplePenv : ProcessEnv := { currentTime := 1000, confirmationTime := 60, getErr := false }

/-- A confirmed header (time 0) with the given block number. -/
def oldHeader (number : Int) : Header := { Number := number, Time := 0 }

/-- A root-chain ABI with the event `NewHeaderBlock` (topic `[1]`). -/
def rootChainABI : ABI := { Events := [("NewHeaderBlock", [1])] }

/-- A state-sender ABI with the event `StateSynced` (topic `[2]`). -/
def stateSenderABI : ABI := { Events := [("StateSynced", [2])] }

/-- A staking-info ABI with the five staking events (topics `[3]` to `[7]`). -/
def stakingInfoABI : ABI :=
  { Events := [("Staked", [3]), ("StakeUpdate", [4]), ("SignerChange", [5]),
      ("UnstakeInit", [6]), ("TopUpFee", [7])] }

/-- The lookup of an event by its id in the event list of an ABI. -/
def sampleEventByID (abiObject : ABI) (sigdata : Bytes) : Option String :=
  (abiObject.Events.find? (fun e => e.2 == sigdata)).map Prod.fst

/-- A sample node: public key `[4, 1, 2, 3]`, address `[8, 8]`, an active validator with
rank delay 48 and stagger 24, the sender of the events of validator 5.  Logs unpack
without error: the data of the log is the signer key and the signer address, and the
validator id is 9.  The three ABIs are in the order of `NewRootChainListener`. -/
def sampleNode : BroadcastEnv :=
  { GetPubKey := [4, 1, 2, 3]
    GetAddress := [8, 8]
    TaskDelayBetweenEachVal := 24
    CalculateTaskDelay := (true, 48)
    IsEventSender := fun id => id == 5
    EventByID := sampleEventByID
    UnpackLog := fun _ vLog =>
      ({ SignerPubkey := vLog.Data, ValidatorId := some 9, Signer := vLog.Data }, false)
    FilterLogs := fun _ _ => ([], false)
    abis := [rootChainABI, stateSenderABI, stakingInfoABI] }

/-- A second ABI that also declares `NewHeaderBlock` with topic `[1]`. -/
def otherRootABI : ABI := { Events := [("NewHeaderBlock", [1]), ("Extra", [9])] }

/-- The sample node with two ABIs that share the topic `[1]`. -/
def sharedTopicNode : BroadcastEnv := { sampleNode with abis := [rootChainABI, otherRootABI] }

/-- A `NewHeaderBlock` log. -/
def headerBlockLog : Log := { Topics := [[1]], Data := [] }

/-- A `Staked` log. -/
def stakedLog : Log := { Topics := [[3]], Data := [5, 5] }

/-- The sample node when `helper.UnpackLog` fails and leaves the event struct at its zero
value (no signer key, nil validator id, zero address), the chain returning one `Staked`
log for every range. -/
def failedUnpackNode : BroadcastEnv :=
  { sampleNode with
    UnpackLog := fun _ _ =>
      ({ SignerPubkey := [], ValidatorId := none, Signer := List.replicate 20 0 }, true)
    FilterLogs := fun _ _ => ([stakedLog], false) }

/-- The sample node when `FilterLogs` fails for every range. -/
def failedFetchNode : BroadcastEnv :=
  { sampleNode with FilterLogs := fun _ _ => ([], true) }

/-- A header with timestamp `2 ^ 64 - 16`. -/
def lateHeader : Header := { Number := 7, Time := 18446744073709551600 }

/-- Time 1700000000 with a confirmation time of 60 seconds. -/
def latePenv : ProcessEnv :=
  { currentTime := 1700000000, confirmationTime := 60, getErr := false }

/-- The sample node with the largest `time.Duration` as its rank delay. -/
def maxDelayNode : BroadcastEnv :=
  { sampleNode with CalculateTaskDelay := (true, 9223372036854775807) }

/-- The sample node (the sender of the events of validator 5) when logs unpack to the
validator id `2 ^ 64 + 5`. -/
def wideValidatorNode : BroadcastEnv :=
  { sampleNode with
    UnpackLog := fun _ vLog =>
      ({ SignerPubkey := vLog.Data, ValidatorId := some 18446744073709551621,
         Signer := vLog.Data }, false) }

/-! ## Lemmas: decimal strings -/

theorem digitValue_digitChar : ∀ d, d < 10 → digitValue (Nat.digitChar d) = some d := by
  decide

theorem parseDigits_toDigitsCore (fuel : Nat) :
    ∀ (n : Nat) (ds : List Char), n < fuel →
      parseDigits (Nat.toDigitsCore 10 fuel n ds) 0 = parseDigits ds n := by
  induction fuel with
  | zero => intro n ds h; omega
  | succ fuel ih =>
    intro n ds h
    have hd : digitValue (Nat.digitChar (n % 10)) = some (n % 10) :=
      digitValue_digitChar _ (Nat.mod_lt _ (by decide))
    unfold Nat.toDigitsCore
    by_cases h0 : n / 10 = 0
    · simp only [h0, if_true]
      have hn : n % 10 = n := by omega
      rw [hn] at hd
      simp [parseDigits, hd, hn]
    · simp only [h0, if_false]
      rw [ih (n / 10) _ (by omega)]
      simp only [parseDigits, hd]
      congr 1
      omega

theorem toDigitsCore_ne_nil (fuel : Nat) :
    ∀ (n : Nat) (ds : List Char), ds ≠ [] → Nat.toDigitsCore 10 fuel n ds ≠ [] := by
  induction fuel with
  | zero => intro n ds h; simpa [Nat.toDigitsCore] using h
  | succ fuel ih =>
    intro n ds h
    unfold Nat.toDigitsCore
    by_cases h0 : n / 10 = 0
    · simp [h0]
    · simp only [h0, if_false]
      exact ih _ _ (by simp)

theorem toDigits_ne_nil (n : Nat) : Nat.toDigits 10 n ≠ [] := by
  unfold Nat.toDigits Nat.toDigitsCore
  by_cases h0 : n / 10 = 0
  · simp [h0]
  · simp only [h0, if_false]
    exact toDigitsCore_ne_nil _ _ _ (by simp)

theorem parseDigits_toDigits (n : Nat) : parseDigits (Nat.toDigits 10 n) 0 = some n := by
  unfold Nat.toDigits
  rw [parseDigits_toDigitsCore _ _ _ (Nat.lt_succ_self n)]
  rfl

theorem bigString_ofNat_data (n : Nat) : (bigString (n : Int)).data = Nat.toDigits 10 n := rfl

theorem bigString_negSucc_data (n : Nat) :
    (bigString (Int.negSucc n)).data = '-' :: Nat.toDigits 10 (n + 1) := by
  show ("-" ++ Nat.repr (n+1)).data = _
  rw [String.data_append]
  rfl

theorem readBig_bigString (x : Int) : readBig (bigString x) = some x := by
  cases x with
  | ofNat n =>
    unfold readBig
    rw [show (bigString (Int.ofNat n)).data = Nat.toDigits 10 n from rfl, parseDigits_toDigits]
    rfl
  | negSucc n =>
    unfold readBig
    rw [bigString_negSucc_data]
    have h1 : parseDigits ('-' :: Nat.toDigits 10 (n + 1)) 0 = none := by
      simp [parseDigits, digitValue]
    rw [h1]
    simp only [parseDigits_toDigits, Option.map_some']
    rfl

theorem bigString_injective : Function.Injective bigString := by
  intro a b h
  have := congrArg readBig h
  simpa [readBig_bigString] using this

theorem ParseUint_bigString_of_lt (n : Nat) (h : n < uint64Size) :
    ParseUint (bigString (n : Int)) = some n := by
  unfold ParseUint
  rw [bigString_ofNat_data]
  have hne := toDigits_ne_nil n
  split
  · next heq => exact absurd heq hne
  · simp [parseDigits_toDigits, h]

theorem ParseUint_bigString_of_ge (n : Nat) (h : uint64Size ≤ n) :
    ParseUint (bigString (n : Int)) = none := by
  unfold ParseUint
  rw [bigString_ofNat_data]
  split
  · rfl
  · simp [parseDigits_toDigits, Nat.not_lt.mpr h]

theorem ParseUint_bigString_negSucc (n : Nat) :
    ParseUint (bigString (Int.negSucc n)) = none := by
  unfold ParseUint
  rw [bigString_negSucc_data]
  simp [parseDigits, digitValue]
/-! ## Lemmas: the handler -/

theorem handle_of_checks (env : Env) (st : Store) (msg : MsgEventRecord) (receipt : Receipt)
    (eventLog : StateSyncedEvent)
    (h1 : HasEventRecord st msg.ID = false)
    (h2 : env.params.BorChainID = msg.ChainID)
    (h3 : env.GetConfirmedTxReceipt env.BlockTime msg.TxHash env.params.TxConfirmationTime
      = (some receipt, false))
    (h4 : env.DecodeStateSyncedEvent env.params.StateSenderAddress receipt msg.LogIndex
      = (some eventLog, false))
    (h5 : Uint64 eventLog.Id = msg.ID)
    (h6 : HasRecordSequence st (bigString (sequenceOf env receipt msg)) = false)
    (h7 : env.setEventRecordErr st (NewEventRecord msg.TxHash msg.LogIndex (Uint64 eventLog.Id)
          eventLog.ContractAddress eventLog.Data msg.ChainID) = false) :
    handleMsgEventRecord env st msg =
      ({ Code := none, Events := [recordEvent msg eventLog] },
        committedStore env st msg receipt eventLog) := by
  unfold handleMsgEventRecord
  have h7' := h7
  simp only [NewEventRecord, h5] at h7'
  simp [h1, h2, h3, h4, h5, h6, SetEventRecord, committedStore, NewEventRecord, h7']

theorem handle_ok (env : Env) (st : Store) (msg : MsgEventRecord)
    (h : (handleMsgEventRecord env st msg).1.IsOK = true) :
    ∃ receipt eventLog,
      HasEventRecord st msg.ID = false ∧
      env.params.BorChainID = msg.ChainID ∧
      env.GetConfirmedTxReceipt env.BlockTime msg.TxHash env.params.TxConfirmationTime
        = (some receipt, false) ∧
      env.DecodeStateSyncedEvent env.params.StateSenderAddress receipt msg.LogIndex
        = (some eventLog, false) ∧
      Uint64 eventLog.Id = msg.ID ∧
      HasRecordSequence st (bigString (sequenceOf env receipt msg)) = false ∧
      env.setEventRecordErr st (NewEventRecord msg.TxHash msg.LogIndex (Uint64 eventLog.Id)
          eventLog.ContractAddress eventLog.Data msg.ChainID) = false := by
  unfold handleMsgEventRecord at h
  split at h
  · simp [Error.Result, Result.IsOK] at h
  · split at h
    · simp [Error.Result, Result.IsOK] at h
    · next h1 h2 =>
      split at h
      · next receipt h3 =>
        split at h
        · next eventLog h4 =>
          split at h
          · simp [Error.Result, Result.IsOK] at h
          · next h5 =>
            simp only at h
            split at h
            · simp [Error.Result, Result.IsOK] at h
            · next h6 =>
              split at h
              · simp [Error.Result, Result.IsOK] at h
              · next st1 h7 =>
                refine ⟨receipt, eventLog, by simpa using h1, by simpa using h2, h3, h4,
                  by simpa using h5, by simpa using h6, ?_⟩
                unfold SetEventRecord at h7
                split at h7
                · simp at h7
                · next h8 => simpa using h8
        · simp [Error.Result, Result.IsOK] at h
      · simp [Error.Result, Result.IsOK] at h

theorem handle_not_ok (env : Env) (st : Store) (msg : MsgEventRecord)
    (h : (handleMsgEventRecord env st msg).1.IsOK = false) :
    (handleMsgEventRecord env st msg).2 = st ∧ (handleMsgEventRecord env st msg).1.Events = [] := by
  unfold handleMsgEventRecord at h ⊢
  split
  · simp [Error.Result]
  · split
    · simp [Error.Result]
    · split
      · split
        · split
          · simp [Error.Result]
          · simp only
            split
            · simp [Error.Result]
            · split
              · simp [Error.Result]
              · next st1 h7 =>
                simp_all [Result.IsOK]
        · simp [Error.Result]
      · simp [Error.Result]

theorem SetRecordSequence_records (st : Store) (s : String) :
    (SetRecordSequence st s).records = st.records := by
  unfold SetRecordSequence
  split <;> rfl

theorem SetRecordSequence_has (st : Store) (s : String) :
    HasRecordSequence (SetRecordSequence st s) s = true := by
  unfold SetRecordSequence HasRecordSequence
  split <;> simp_all

theorem find_filter_append (l : List EventRecord) (record : EventRecord) :
    (l.filter (fun r => r.ID != record.ID) ++ [record]).find? (fun r => r.ID == record.ID)
      = some record := by
  have hnone : (l.filter (fun r => r.ID != record.ID)).find? (fun r => r.ID == record.ID)
      = none := by
    rw [List.find?_eq_none]
    intro x hx
    simp only [List.mem_filter] at hx
    simpa using hx.2
  rw [List.find?_append, hnone]
  simp

theorem filter_of_not_has (st : Store) (id : Nat) (h : HasEventRecord st id = false) :
    st.records.filter (fun r => r.ID != id) = st.records := by
  unfold HasEventRecord at h
  rw [List.filter_eq_self]
  intro r hr
  have := (List.any_eq_false.mp h) r hr
  simpa using this

theorem committedStore_records (env : Env) (st : Store) (msg : MsgEventRecord)
    (receipt : Receipt) (eventLog : StateSyncedEvent)
    (h1 : HasEventRecord st msg.ID = false) (h5 : Uint64 eventLog.Id = msg.ID) :
    (committedStore env st msg receipt eventLog).records =
      st.records ++ [NewEventRecord msg.TxHash msg.LogIndex msg.ID
        eventLog.ContractAddress eventLog.Data msg.ChainID] := by
  unfold committedStore
  rw [SetRecordSequence_records, h5]
  simp only
  rw [filter_of_not_has st msg.ID h1]

theorem committedStore_sequences (env : Env) (st : Store) (msg : MsgEventRecord)
    (receipt : Receipt) (eventLog : StateSyncedEvent)
    (h6 : HasRecordSequence st (bigString (sequenceOf env receipt msg)) = false) :
    (committedStore env st msg receipt eventLog).sequences =
      st.sequences ++ [bigString (sequenceOf env receipt msg)] := by
  unfold committedStore SetRecordSequence
  unfold HasRecordSequence at h6
  have h6' : bigString (sequenceOf env receipt msg) ∉ st.sequences := by simpa using h6
  simp [h6']

theorem storeMatchesLog_step (i : Env × MsgEventRecord) (st : Store)
    (log : List (Env × MsgEventRecord)) (hinv : StoreMatchesLog st log)
    (hok : (handleMsgEventRecord i.1 st i.2).1.IsOK = true) :
    StoreMatchesLog (handleMsgEventRecord i.1 st i.2).2 (log ++ [i]) := by
  obtain ⟨receipt, eventLog, h1, h2, h3, h4, h5, h6, h7⟩ := handle_ok i.1 st i.2 hok
  obtain ⟨hr, hs, hrn, hsn⟩ := hinv
  rw [handle_of_checks i.1 st i.2 receipt eventLog h1 h2 h3 h4 h5 h6 h7]
  have hcs : committedSequence i = some (sequenceOf i.1 receipt i.2) := by
    unfold committedSequence
    rw [h3]
  have hid : i.2.ID ∉ st.records.map (fun r => r.ID) := by
    unfold HasEventRecord at h1
    intro hmem
    obtain ⟨r, hr1, hr2⟩ := List.mem_map.mp hmem
    have := (List.any_eq_false.mp h1) r hr1
    simp [hr2] at this
  have hseq : bigString (sequenceOf i.1 receipt i.2) ∉ st.sequences := by
    unfold HasRecordSequence at h6
    simpa using h6
  refine ⟨?_, ?_, ?_, ?_⟩
  · rw [committedStore_records i.1 st i.2 receipt eventLog h1 h5]
    simp [hr, NewEventRecord]
  · rw [committedStore_sequences i.1 st i.2 receipt eventLog h6]
    simp [hs, hcs]
  · rw [committedStore_records i.1 st i.2 receipt eventLog h1 h5]
    rw [List.map_append, List.nodup_append]
    refine ⟨hrn, by simp, ?_⟩
    intro a ha hb
    simp only [List.map_cons, List.map_nil, List.mem_singleton, NewEventRecord] at hb
    exact hid (hb ▸ ha)
  · rw [committedStore_sequences i.1 st i.2 receipt eventLog h6]
    rw [List.nodup_append]
    refine ⟨hsn, by simp, ?_⟩
    intro a ha hb
    simp only [List.mem_singleton] at hb
    exact hseq (hb ▸ ha)

theorem storeMatchesLog_run (inputs : List (Env × MsgEventRecord)) :
    ∀ (st : Store) (log : List (Env × MsgEventRecord)), StoreMatchesLog st log →
      StoreMatchesLog (run st inputs) (log ++ commits st inputs) := by
  induction inputs with
  | nil => intro st log h; simpa [run, commits] using h
  | cons i rest ih =>
    intro st log h
    unfold run commits
    by_cases hok : (handleMsgEventRecord i.1 st i.2).1.IsOK = true
    · have := ih _ _ (storeMatchesLog_step i st log h hok)
      simpa [hok] using this
    · have hno : (handleMsgEventRecord i.1 st i.2).1.IsOK = false := by simpa using hok
      have hst := (handle_not_ok i.1 st i.2 hno).1
      have := ih st log h
      simpa [hno, hst] using this

theorem committedStore_has_other (env : Env) (st : Store) (msg : MsgEventRecord)
    (receipt : Receipt) (eventLog : StateSyncedEvent) (id : Nat)
    (h1 : HasEventRecord st msg.ID = false) (h5 : Uint64 eventLog.Id = msg.ID)
    (hid : msg.ID ≠ id) (hn : HasEventRecord st id = false) :
    HasEventRecord (committedStore env st msg receipt eventLog) id = false := by
  unfold HasEventRecord at hn ⊢
  rw [committedStore_records env st msg receipt eventLog h1 h5, List.any_append, hn]
  simp [NewEventRecord, hid]

theorem committedStore_seq_other (env : Env) (st : Store) (msg : MsgEventRecord)
    (receipt : Receipt) (eventLog : StateSyncedEvent) (s : Int)
    (h6 : HasRecordSequence st (bigString (sequenceOf env receipt msg)) = false)
    (hne : sequenceOf env receipt msg ≠ s) (hn : HasRecordSequence st (bigString s) = false) :
    HasRecordSequence (committedStore env st msg receipt eventLog) (bigString s) = false := by
  unfold HasRecordSequence at hn ⊢
  rw [committedStore_sequences env st msg receipt eventLog h6]
  have hn' : bigString s ∉ st.sequences := by simpa using hn
  have hk : bigString s ≠ bigString (sequenceOf env receipt msg) :=
    fun h => hne (bigString_injective h).symm
  simp [hn', hk]

/-! ## Lemmas: the listener -/

theorem flushLoop_eq (conf t : Nat) :
    ∀ (queue : List Header) (start end_ : Option Int),
      (∀ h ∈ queue, h.Time + conf < 2 ^ 64) →
      flushLoop conf t queue start end_ =
        (queue.dropWhile (fun h => decide (h.Time + conf ≤ t)),
          start <|> (queue.takeWhile (fun h => decide (h.Time + conf ≤ t))).head?.map
            Header.Number,
          (queue.takeWhile (fun h => decide (h.Time + conf ≤ t))).getLast?.map
            Header.Number <|> end_) := by
  intro queue
  induction queue with
  | nil => intro start end_ _; cases start <;> simp [flushLoop]
  | cons h queue ih =>
    intro start end_ hfit
    have hh : h.Time + conf < 2 ^ 64 := hfit h (List.mem_cons_self _ _)
    have hq : ∀ x ∈ queue, x.Time + conf < 2 ^ 64 :=
      fun x hx => hfit x (List.mem_cons_of_mem _ hx)
    have hmod : (h.Time + conf) % uint64Size = h.Time + conf := Nat.mod_eq_of_lt hh
    unfold flushLoop
    rw [hmod]
    by_cases hc : h.Time + conf ≤ t
    · have hnot : ¬ (h.Time + conf > t) := by omega
      rw [if_neg hnot, ih _ _ hq]
      simp only [List.dropWhile_cons, List.takeWhile_cons, hc, decide_True, if_true,
        List.head?_cons, Option.map_some']
      refine Prod.ext rfl (Prod.ext ?_ ?_)
      · cases start <;> simp
      · simp only
        rw [List.getLast?_cons]
        cases (List.takeWhile (fun h => decide (h.Time + conf ≤ t)) queue).getLast? <;> simp
    · have hgt : h.Time + conf > t := by omega
      rw [if_pos hgt]
      cases start <;> simp [hc]

theorem blockRange_eq_specRange (stored : Option String) (getErr : Bool) (start end_ : Int)
    (hget : getErr = false ∨ stored = none)
    (hfit : ∀ c, stored.bind ParseUint = some c → c + 1 < 2 ^ 64) :
    blockRange stored getErr start end_ = some (specRange (stored.bind ParseUint) start end_) := by
  unfold blockRange specRange
  cases stored with
  | none => simp
  | some s =>
    have hg : getErr = false := by
      rcases hget with h | h
      · exact h
      · simp at h
    cases hp : ParseUint s with
    | none => simp [hg, hp]
    | some c =>
      have hc : c + 1 < 2 ^ 64 := hfit c (by simp [hp])
      have hmod : (c + 1) % uint64Size = c + 1 := Nat.mod_eq_of_lt hc
      simp [hg, hp, hmod]

theorem ProcessHeader_eq_specRange (penv : ProcessEnv) (rl : RootChainListener) (newHeader : Header)
    (queue : List Header) (start end_ : Int)
    (hflush : flushLoop penv.confirmationTime penv.currentTime
      (rl.headerQueue ++ [newHeader]) none none = (queue, some start, some end_))
    (hget : penv.getErr = false ∨ rl.lastRootBlock = none)
    (hfit : ∀ c, rl.lastRootBlock.bind ParseUint = some c → c + 1 < 2 ^ 64) :
    ProcessHeader penv rl newHeader =
      ({ headerQueue := queue, lastRootBlock := some (bigString end_) },
        some (specRange (rl.lastRootBlock.bind ParseUint) start end_)) := by
  unfold ProcessHeader
  rw [hflush]
  simp only
  rw [blockRange_eq_specRange _ _ _ _ hget hfit]
  rfl

/-! ## Lemmas: log dispatch -/

theorem Broadcast.nothing_andThen (b : Broadcast) : Broadcast.nothing.andThen b = b := by
  simp [Broadcast.andThen, Broadcast.nothing]

theorem Broadcast.andThen_nothing (a : Broadcast) : a.andThen Broadcast.nothing = a := by
  unfold Broadcast.andThen Broadcast.nothing
  split
  · rfl
  · next h =>
    cases a with
    | mk tasks panicked =>
      simp only [Bool.not_eq_true] at h
      simp [h]

theorem dispatchEvent_tasks_length (node : BroadcastEnv) (name : String) (vLog : Log) :
    (dispatchEvent node name vLog).tasks.length ≤ 1 := by
  unfold dispatchEvent
  simp only
  split <;> (try split) <;> (try split_ifs) <;>
    simp [sendTaskWithDelay, Broadcast.nothing, Broadcast.panic]

theorem processABIs_eq_dispatchAll (node : BroadcastEnv) (topic : Bytes) (vLog : Log) :
    ∀ abis : List ABI,
      processABIs node topic vLog abis =
        dispatchAll node vLog (abis.filterMap (fun abiObject => node.EventByID abiObject topic)) := by
  intro abis
  induction abis with
  | nil => rfl
  | cons abiObject rest ih =>
    unfold processABIs
    cases h : node.EventByID abiObject topic with
    | none =>
      simp only [List.filterMap_cons, h]
      rw [Broadcast.nothing_andThen, ih]
    | some name =>
      simp only [List.filterMap_cons, h]
      rw [ih]
      rfl

theorem ProcessHeader_range_le (penv : ProcessEnv) (rl : RootChainListener) (newHeader : Header)
    (fromBlock toBlock : Int)
    (h : (ProcessHeader penv rl newHeader).2 = some (fromBlock, toBlock)) :
    fromBlock ≤ toBlock ∧
      (ProcessHeader penv rl newHeader).1.lastRootBlock = some (bigString toBlock) := by
  revert h
  unfold ProcessHeader
  split
  · next queue start end_ _ =>
    split
    · next fb tb hb =>
      intro h
      simp only [Option.some.injEq, Prod.mk.injEq] at h
      obtain ⟨rfl, rfl⟩ := h
      refine ⟨?_, rfl⟩
      unfold blockRange at hb
      simp only at hb
      split at hb
      · simp at hb
      · next fb0 _ =>
        simp only [Option.some.injEq, Prod.mk.injEq] at hb
        obtain ⟨h1, h2⟩ := hb
        subst h2
        split_ifs at h1 with hlt
        · omega
        · omega
    · intro h; simp at h
  · intro h; simp at h

theorem ProcessHeader_after_commit (penv : ProcessEnv) (rl : RootChainListener)
    (newHeader : Header) (c : Int) (queue : List Header) (start end_ : Int)
    (hcur : rl.lastRootBlock = some (bigString c))
    (hflush : flushLoop penv.confirmationTime penv.currentTime
      (rl.headerQueue ++ [newHeader]) none none = (queue, some start, some end_))
    (hget : penv.getErr = false)
    (h0 : 0 ≤ c) (hfit : c + 1 < 2 ^ 64) (hend : c < end_) :
    ProcessHeader penv rl newHeader =
      ({ headerQueue := queue, lastRootBlock := some (bigString end_) },
        some (c + 1, end_)) := by
  obtain ⟨n, rfl⟩ := Int.eq_ofNat_of_zero_le h0
  have hparse : ParseUint (bigString (n : Int)) = some n :=
    ParseUint_bigString_of_lt n (by unfold uint64Size; omega)
  have hfit2 : ∀ c, rl.lastRootBlock.bind ParseUint = some c → c + 1 < 2 ^ 64 := by
    intro c hc
    rw [hcur] at hc
    simp only [Option.some_bind, hparse, Option.some.injEq] at hc
    omega
  rw [ProcessHeader_eq_specRange penv rl newHeader queue start end_ hflush (Or.inl hget) hfit2,
    hcur]
  simp only [Option.some_bind, hparse, specRange]
  have : ¬ (end_ < (n : Int) + 1) := by omega
  simp [this]

theorem ProcessHeader_none_cursor (penv : ProcessEnv) (rl : RootChainListener)
    (newHeader : Header) (h : (ProcessHeader penv rl newHeader).2 = none) :
    (ProcessHeader penv rl newHeader).1.lastRootBlock = rl.lastRootBlock := by
  revert h
  unfold ProcessHeader
  split
  · split
    · intro h; simp at h
    · intro _; rfl
  · intro _; rfl

theorem ProcessHeader_range_of_cursor (penv : ProcessEnv) (rl : RootChainListener)
    (newHeader : Header) (v fromBlock toBlock : Int)
    (hcur : rl.lastRootBlock = some (bigString v)) (h0 : 0 ≤ v) (hfit : v + 1 < 2 ^ 64)
    (h : (ProcessHeader penv rl newHeader).2 = some (fromBlock, toBlock)) :
    fromBlock = (if toBlock < v + 1 then toBlock else v + 1) ∧
      (ProcessHeader penv rl newHeader).1.lastRootBlock = some (bigString toBlock) := by
  obtain ⟨n, rfl⟩ := Int.eq_ofNat_of_zero_le h0
  have hparse : ParseUint (bigString (n : Int)) = some n :=
    ParseUint_bigString_of_lt n (by unfold uint64Size; omega)
  have hmod : (n + 1) % uint64Size = n + 1 :=
    Nat.mod_eq_of_lt (by unfold uint64Size; omega)
  revert h
  unfold ProcessHeader
  split
  · next queue start end_ _ =>
    split
    · next fb tb hb =>
      intro h
      simp only [Option.some.injEq, Prod.mk.injEq] at h
      obtain ⟨rfl, rfl⟩ := h
      refine ⟨?_, rfl⟩
      unfold blockRange at hb
      rw [hcur] at hb
      simp only [hparse, hmod] at hb
      split at hb
      · simp at hb
      · next fb0 hfs =>
        simp only [Option.some.injEq, Prod.mk.injEq] at hb
        obtain ⟨h1, h2⟩ := hb
        subst h2
        split at hfs
        · simp at hfs
        · simp only [Option.some.injEq] at hfs
          subst hfs
          rw [← h1]
          push_cast
          rfl
    · intro h; simp at h
  · intro h; simp at h

theorem cycles_start_above (c : Int) (hc : 0 ≤ c) :
    ∀ (steps : List (ProcessEnv × Header)) (rl : RootChainListener) (v : Int),
      rl.lastRootBlock = some (bigString v) → c ≤ v → v + 1 < 2 ^ 64 →
      (cycles rl steps).all (rangeEndsAbove c) = true →
      (cycles rl steps).all (rangeStartsAbove c) = true := by
  intro steps
  induction steps with
  | nil => intro rl v _ _ _ _; rfl
  | cons step rest ih =>
    intro rl v hcur hv hfit hends
    unfold cycles at hends ⊢
    simp only [List.all_cons, Bool.and_eq_true] at hends ⊢
    obtain ⟨hend, hrest⟩ := hends
    cases hr : (ProcessHeader step.1 rl step.2).2 with
    | none =>
      have hsame := ProcessHeader_none_cursor step.1 rl step.2 hr
      exact ⟨rfl, ih _ v (hsame.trans hcur) hv hfit hrest⟩
    | some range =>
      obtain ⟨fromBlock, toBlock⟩ := range
      rw [hr] at hend
      simp only [rangeEndsAbove, decide_eq_true_eq] at hend
      obtain ⟨hfrom, hnew⟩ := ProcessHeader_range_of_cursor step.1 rl step.2 v fromBlock
        toBlock hcur (by omega) hfit hr
      refine ⟨?_, ih _ toBlock hnew (by omega) hend.2 hrest⟩
      simp only [rangeStartsAbove, decide_eq_true_eq]
      rw [hfrom]
      split_ifs <;> omega

/-! ## Clerk: claims -/

/-- C1: when `handleMsgEventRecord` succeeds on a message, handling the same message
again on the resulting store (whatever the chain answers the second time, so also when
they are the same) fails with `ErrEventRecordAlreadySynced` and leaves the store as it
is: no Event Record and no sequence entry is added. -/
theorem handleMsgEventRecord_resubmit_duplicate (env env' : Env) (st : Store)
    (msg : MsgEventRecord) (h : (handleMsgEventRecord env st msg).1.IsOK = true) :
    (handleMsgEventRecord env' (handleMsgEventRecord env st msg).2 msg).1
        = Error.ErrEventRecordAlreadySynced.Result ∧
      (handleMsgEventRecord env' (handleMsgEventRecord env st msg).2 msg).2
        = (handleMsgEventRecord env st msg).2 := by
  obtain ⟨receipt, eventLog, h1, h2, h3, h4, h5, h6, h7⟩ := handle_ok env st msg h
  rw [handle_of_checks env st msg receipt eventLog h1 h2 h3 h4 h5 h6 h7]
  have hhas : HasEventRecord (committedStore env st msg receipt eventLog) msg.ID = true := by
    unfold committedStore SetRecordSequence HasEventRecord
    split <;> simp [NewEventRecord, h5]
  unfold handleMsgEventRecord
  simp [hhas]

/-- Witness of C1 on the sample message and the empty store. -/
theorem handleMsgEventRecord_resubmit_duplicate_witness :
    (handleMsgEventRecord sampleEnv Store.empty sampleMsg).1.IsOK = true ∧
      (handleMsgEventRecord sampleEnv (handleMsgEventRecord sampleEnv Store.empty sampleMsg).2
          sampleMsg).1 = Error.ErrEventRecordAlreadySynced.Result ∧
      (handleMsgEventRecord sampleEnv (handleMsgEventRecord sampleEnv Store.empty sampleMsg).2
          sampleMsg).2 = (handleMsgEventRecord sampleEnv Store.empty sampleMsg).2 :=
  ⟨by decide,
    handleMsgEventRecord_resubmit_duplicate sampleEnv sampleEnv Store.empty sampleMsg (by decide)⟩

/-- Counterexample to C2 as stated: the decoded log id `2 ^ 64 + 5` differs from the
claimed id `5`, so check 5 of the list fails, yet the handler succeeds. -/
theorem firstFailingCheck_wide_id_counterexample :
    firstFailingCheck wideIdEnv Store.empty sampleMsg5
        = some (Error.ErrInvalidMsg
            "ID in message doesn't match with id in log. msgId %v stateIdFromTx %v"
            [5, 18446744073709551621]) ∧
      (handleMsgEventRecord wideIdEnv Store.empty sampleMsg5).1.Code = none := by
  decide

/-- C2 (amended): when the decoded log id is a number from `0` to `2 ^ 64 - 1`, the handler
returns the error of the first failing check in the fixed order (duplicate record, chain
mismatch, receipt not confirmed, log not decodable, id mismatch, sequence already
recorded), and it succeeds only if none of the six checks fails. -/
theorem handleMsgEventRecord_first_failing_check (env : Env) (st : Store)
    (msg : MsgEventRecord)
    (hfit : ∀ receipt eventLog,
      env.GetConfirmedTxReceipt env.BlockTime msg.TxHash env.params.TxConfirmationTime
        = (some receipt, false) →
      env.DecodeStateSyncedEvent env.params.StateSenderAddress receipt msg.LogIndex
        = (some eventLog, false) →
      0 ≤ eventLog.Id ∧ eventLog.Id < 2 ^ 64) :
    (∀ e, firstFailingCheck env st msg = some e →
        (handleMsgEventRecord env st msg).1 = e.Result) ∧
      ((handleMsgEventRecord env st msg).1.IsOK = true →
        firstFailingCheck env st msg = none) := by
  have key : ∀ eventLog : StateSyncedEvent, 0 ≤ eventLog.Id ∧ eventLog.Id < 2 ^ 64 →
      (Uint64 eventLog.Id = msg.ID ↔ eventLog.Id = (msg.ID : Int)) := by
    intro eventLog ⟨h0, h1⟩
    unfold Uint64 uint64Size
    have : (eventLog.Id.natAbs : Int) = eventLog.Id := Int.natAbs_of_nonneg h0
    have hlt : eventLog.Id.natAbs < 2 ^ 64 := by omega
    rw [Nat.mod_eq_of_lt hlt]
    omega
  unfold firstFailingCheck checkFailures handleMsgEventRecord
  by_cases h1 : HasEventRecord st msg.ID = true
  · simp [h1, List.findSome?, Error.Result, Result.IsOK]
  · by_cases h2 : env.params.BorChainID = msg.ChainID
    · rcases hf : env.GetConfirmedTxReceipt env.BlockTime msg.TxHash
          env.params.TxConfirmationTime with ⟨_ | receipt, _ | _⟩
      · simp [h1, h2, hf, List.findSome?, Error.Result, Result.IsOK]
      · simp [h1, h2, hf, List.findSome?, Error.Result, Result.IsOK]
      · rcases hd : env.DecodeStateSyncedEvent env.params.StateSenderAddress receipt
            msg.LogIndex with ⟨_ | eventLog, _ | _⟩
        · simp [h1, h2, hf, hd, List.findSome?, Error.Result, Result.IsOK]
        · simp [h1, h2, hf, hd, List.findSome?, Error.Result, Result.IsOK]
        · have hk := key eventLog (hfit receipt eventLog hf hd)
          by_cases h5 : eventLog.Id = (msg.ID : Int)
          · have h5' := hk.mpr h5
            have h5b : Uint64 (msg.ID : Int) = msg.ID := h5 ▸ h5'
            by_cases h6 : HasRecordSequence st (bigString (sequenceOf env receipt msg)) = true
            · have h6' := h6
              unfold sequenceOf at h6'
              simp [h1, h2, hf, hd, h5, h5', h5b, h6, h6', List.findSome?, Error.Result,
                Result.IsOK]
            · have h6' := h6
              unfold sequenceOf at h6'
              simp [h1, h2, hf, hd, h5, h5', h5b, h6, h6', List.findSome?, Error.Result,
                Result.IsOK]
          · have h5' : ¬ Uint64 eventLog.Id = msg.ID := fun h => h5 (hk.mp h)
            simp [h1, h2, hf, hd, h5, h5', List.findSome?, Error.Result, Result.IsOK]
        · simp [h1, h2, hf, hd, List.findSome?, Error.Result, Result.IsOK]
      · simp [h1, h2, hf, List.findSome?, Error.Result, Result.IsOK]
    · have h2' : ¬ msg.ChainID = env.params.BorChainID := fun h => h2 h.symm
      simp [h1, h2, h2', List.findSome?, Error.Result, Result.IsOK]

/-- Witness of C2 (amended): on a store that already holds sequence 1000001, the sample
message passes checks 1 to 5 and fails check 6. -/
theorem handleMsgEventRecord_first_failing_check_witness :
    firstFailingCheck sampleEnv { records := [], sequences := ["1000001"] } sampleMsg
        = some Error.ErrOldTx ∧
      (handleMsgEventRecord sampleEnv { records := [], sequences := ["1000001"] } sampleMsg).1
        = Error.ErrOldTx.Result :=
  ⟨by decide,
    (handleMsgEventRecord_first_failing_check sampleEnv
      { records := [], sequences := ["1000001"] } sampleMsg
      (by
        intro receipt eventLog hf hd
        have hr : receipt = { BlockNumber := 10 } := by
          have := congrArg Prod.fst hf
          simpa [sampleEnv, sampleMsg] using this.symm
        subst hr
        have hl : eventLog = { Id := 11, ContractAddress := [9], Data := [7] } := by
          have := congrArg Prod.fst hd
          simpa [sampleEnv, sampleMsg] using this.symm
        subst hl
        decide)).1 _ (by decide)⟩

/-- C3: when `handleMsgEventRecord` returns a failure (any error result, the failed record
write included), the stored Event Records and the recorded sequences are those from
before the call, and the result carries no event. -/
theorem handleMsgEventRecord_failure_no_write (env : Env) (st : Store) (msg : MsgEventRecord)
    (h : (handleMsgEventRecord env st msg).1.IsOK = false) :
    (handleMsgEventRecord env st msg).2.records = st.records ∧
      (handleMsgEventRecord env st msg).2.sequences = st.sequences ∧
      (handleMsgEventRecord env st msg).1.Events = [] := by
  obtain ⟨hs, he⟩ := handle_not_ok env st msg h
  rw [hs]
  exact ⟨rfl, rfl, he⟩

/-- Witness of C3 on a record write that fails. -/
theorem handleMsgEventRecord_failure_no_write_witness :
    (handleMsgEventRecord failingWriteEnv Store.empty sampleMsg).1
        = Error.ErrEventUpdate.Result ∧
      (handleMsgEventRecord failingWriteEnv Store.empty sampleMsg).2.records = [] ∧
      (handleMsgEventRecord failingWriteEnv Store.empty sampleMsg).2.sequences = [] ∧
      (handleMsgEventRecord failingWriteEnv Store.empty sampleMsg).1.Events = [] :=
  ⟨by decide,
    handleMsgEventRecord_failure_no_write failingWriteEnv Store.empty sampleMsg (by decide)⟩

/-- C4: in every state reached from the empty store by a sequence of
`handleMsgEventRecord` invocations, no two committed invocations share an id and no two
share a sequence value (every commit has a sequence); the stored records are those of the
commits, so no two stored records share an id, and no sequence entry is stored twice. -/
theorem reachable_ids_sequences_unique (inputs : List (Env × MsgEventRecord)) :
    ((commits Store.empty inputs).map (fun i => i.2.ID)).Nodup ∧
      ((commits Store.empty inputs).map committedSequence).Nodup ∧
      (commits Store.empty inputs).all (fun i => (committedSequence i).isSome) = true ∧
      (run Store.empty inputs).records.map (fun r => r.ID)
        = (commits Store.empty inputs).map (fun i => i.2.ID) ∧
      ((run Store.empty inputs).records.map (fun r => r.ID)).Nodup ∧
      (run Store.empty inputs).sequences.Nodup := by
  have hinit : StoreMatchesLog Store.empty [] := by
    simp [StoreMatchesLog, Store.empty]
  have h := storeMatchesLog_run inputs Store.empty [] hinit
  rw [List.nil_append] at h
  obtain ⟨hr, hs, hrn, hsn⟩ := h
  have hsome : ((run Store.empty inputs).sequences.map some).Nodup :=
    hsn.map (Option.some_injective _)
  rw [hs] at hsome
  refine ⟨hr ▸ hrn, ?_, ?_, hr, hrn, hsn⟩
  · have : (List.map (Option.map bigString) ((commits Store.empty inputs).map
        committedSequence)).Nodup := by
      rw [List.map_map]
      exact hsome
    exact this.of_map _
  · rw [List.all_eq_true]
    intro i hi
    have hmem : (committedSequence i).map bigString ∈
        (run Store.empty inputs).sequences.map some := by
      rw [hs]
      exact List.mem_map.mpr ⟨i, hi, rfl⟩
    obtain ⟨s, _, hs2⟩ := List.mem_map.mp hmem
    cases hc : committedSequence i with
    | none => simp [hc] at hs2
    | some v => rfl

/-- Counterexample to C5 as stated: the two sample messages have different ids, sequences
`1000001 < 2000002`, and pass all six checks on the empty store, but the record write
reports an error, so committing the first one fails with `ErrEventUpdate`. -/
theorem commit_failed_write_counterexample :
    firstFailingCheck failingWriteEnv Store.empty sampleMsg = none ∧
      firstFailingCheck failingWriteEnv Store.empty sampleMsg2 = none ∧
      sampleMsg.ID ≠ sampleMsg2.ID ∧
      sequenceOf failingWriteEnv { BlockNumber := 10 } sampleMsg
        < sequenceOf failingWriteEnv { BlockNumber := 20 } sampleMsg2 ∧
      (handleMsgEventRecord failingWriteEnv Store.empty sampleMsg).1
        = Error.ErrEventUpdate.Result := by
  decide

/-- C5 (amended): two messages with different ids that pass the chain-id, receipt, log and
id checks, whose ids and sequences are not yet recorded and whose sequences satisfy
`s1 < s2`, commit in either order when no record write reports an error: all four
invocations succeed, each order ends with the old records followed by the two new
records and the old sequences followed by the two new sequences, in the order of
arrival, so the two orders end with the same records and the same sequences. -/
theorem commit_either_order (env : Env) (st : Store) (m1 m2 : MsgEventRecord)
    (r1 r2 : Receipt) (l1 l2 : StateSyncedEvent)
    (hc1 : env.params.BorChainID = m1.ChainID)
    (hc2 : env.params.BorChainID = m2.ChainID)
    (hf1 : env.GetConfirmedTxReceipt env.BlockTime m1.TxHash env.params.TxConfirmationTime
      = (some r1, false))
    (hf2 : env.GetConfirmedTxReceipt env.BlockTime m2.TxHash env.params.TxConfirmationTime
      = (some r2, false))
    (hd1 : env.DecodeStateSyncedEvent env.params.StateSenderAddress r1 m1.LogIndex
      = (some l1, false))
    (hd2 : env.DecodeStateSyncedEvent env.params.StateSenderAddress r2 m2.LogIndex
      = (some l2, false))
    (hi1 : Uint64 l1.Id = m1.ID)
    (hi2 : Uint64 l2.Id = m2.ID)
    (hw : ∀ s r, env.setEventRecordErr s r = false)
    (hn1 : HasEventRecord st m1.ID = false)
    (hn2 : HasEventRecord st m2.ID = false)
    (hs1 : HasRecordSequence st (bigString (sequenceOf env r1 m1)) = false)
    (hs2 : HasRecordSequence st (bigString (sequenceOf env r2 m2)) = false)
    (hid : m1.ID ≠ m2.ID)
    (hlt : sequenceOf env r1 m1 < sequenceOf env r2 m2) :
    (handleMsgEventRecord env st m1).1.IsOK = true ∧
      (handleMsgEventRecord env (handleMsgEventRecord env st m1).2 m2).1.IsOK = true ∧
      (handleMsgEventRecord env st m2).1.IsOK = true ∧
      (handleMsgEventRecord env (handleMsgEventRecord env st m2).2 m1).1.IsOK = true ∧
      (handleMsgEventRecord env (handleMsgEventRecord env st m1).2 m2).2.records =
        st.records ++
          [NewEventRecord m1.TxHash m1.LogIndex m1.ID l1.ContractAddress l1.Data m1.ChainID,
           NewEventRecord m2.TxHash m2.LogIndex m2.ID l2.ContractAddress l2.Data m2.ChainID] ∧
      (handleMsgEventRecord env (handleMsgEventRecord env st m2).2 m1).2.records =
        st.records ++
          [NewEventRecord m2.TxHash m2.LogIndex m2.ID l2.ContractAddress l2.Data m2.ChainID,
           NewEventRecord m1.TxHash m1.LogIndex m1.ID l1.ContractAddress l1.Data m1.ChainID] ∧
      (handleMsgEventRecord env (handleMsgEventRecord env st m1).2 m2).2.sequences =
        st.sequences ++
          [bigString (sequenceOf env r1 m1), bigString (sequenceOf env r2 m2)] ∧
      (handleMsgEventRecord env (handleMsgEventRecord env st m2).2 m1).2.sequences =
        st.sequences ++
          [bigString (sequenceOf env r2 m2), bigString (sequenceOf env r1 m1)] ∧
      (handleMsgEventRecord env (handleMsgEventRecord env st m1).2 m2).2.records.Perm
        (handleMsgEventRecord env (handleMsgEventRecord env st m2).2 m1).2.records ∧
      (handleMsgEventRecord env (handleMsgEventRecord env st m1).2 m2).2.sequences.Perm
        (handleMsgEventRecord env (handleMsgEventRecord env st m2).2 m1).2.sequences := by
  have hne : sequenceOf env r1 m1 ≠ sequenceOf env r2 m2 := ne_of_lt hlt
  have e1 := handle_of_checks env st m1 r1 l1 hn1 hc1 hf1 hd1 hi1 hs1 (hw _ _)
  have e2 := handle_of_checks env st m2 r2 l2 hn2 hc2 hf2 hd2 hi2 hs2 (hw _ _)
  have n12 := committedStore_has_other env st m1 r1 l1 m2.ID hn1 hi1 hid hn2
  have n21 := committedStore_has_other env st m2 r2 l2 m1.ID hn2 hi2 (Ne.symm hid) hn1
  have s12 := committedStore_seq_other env st m1 r1 l1 _ hs1 hne hs2
  have s21 := committedStore_seq_other env st m2 r2 l2 _ hs2 (Ne.symm hne) hs1
  have e12 := handle_of_checks env (committedStore env st m1 r1 l1) m2 r2 l2 n12 hc2 hf2 hd2
    hi2 s12 (hw _ _)
  have e21 := handle_of_checks env (committedStore env st m2 r2 l2) m1 r1 l1 n21 hc1 hf1 hd1
    hi1 s21 (hw _ _)
  have rec12 : (committedStore env (committedStore env st m1 r1 l1) m2 r2 l2).records =
      st.records ++
        [NewEventRecord m1.TxHash m1.LogIndex m1.ID l1.ContractAddress l1.Data m1.ChainID,
         NewEventRecord m2.TxHash m2.LogIndex m2.ID l2.ContractAddress l2.Data m2.ChainID] := by
    rw [committedStore_records _ _ _ _ _ n12 hi2, committedStore_records _ _ _ _ _ hn1 hi1,
      List.append_assoc]
    rfl
  have rec21 : (committedStore env (committedStore env st m2 r2 l2) m1 r1 l1).records =
      st.records ++
        [NewEventRecord m2.TxHash m2.LogIndex m2.ID l2.ContractAddress l2.Data m2.ChainID,
         NewEventRecord m1.TxHash m1.LogIndex m1.ID l1.ContractAddress l1.Data m1.ChainID] := by
    rw [committedStore_records _ _ _ _ _ n21 hi1, committedStore_records _ _ _ _ _ hn2 hi2,
      List.append_assoc]
    rfl
  have seq12 : (committedStore env (committedStore env st m1 r1 l1) m2 r2 l2).sequences =
      st.sequences ++ [bigString (sequenceOf env r1 m1), bigString (sequenceOf env r2 m2)] := by
    rw [committedStore_sequences _ _ _ _ _ s12, committedStore_sequences _ _ _ _ _ hs1,
      List.append_assoc]
    rfl
  have seq21 : (committedStore env (committedStore env st m2 r2 l2) m1 r1 l1).sequences =
      st.sequences ++ [bigString (sequenceOf env r2 m2), bigString (sequenceOf env r1 m1)] := by
    rw [committedStore_sequences _ _ _ _ _ s21, committedStore_sequences _ _ _ _ _ hs2,
      List.append_assoc]
    rfl
  rw [e1, e2]
  simp only
  rw [e12, e21]
  refine ⟨rfl, rfl, rfl, rfl, rec12, rec21, seq12, seq21, ?_, ?_⟩
  · simp only
    rw [rec12, rec21]
    exact List.Perm.append_left _ (List.Perm.swap _ _ _)
  · simp only
    rw [seq12, seq21]
    exact List.Perm.append_left _ (List.Perm.swap _ _ _)

/-- Witness of C5 (amended): the two sample messages (ids 11 and 22, sequences 1000001 and
2000002) on the empty store; both orders end with the two records and the two
sequences. -/
theorem commit_either_order_witness :
    (handleMsgEventRecord sampleEnv (handleMsgEventRecord sampleEnv Store.empty sampleMsg).2
        sampleMsg2).1.IsOK = true ∧
      (handleMsgEventRecord sampleEnv (handleMsgEventRecord sampleEnv Store.empty sampleMsg2).2
        sampleMsg).1.IsOK = true ∧
      (handleMsgEventRecord sampleEnv (handleMsgEventRecord sampleEnv Store.empty sampleMsg).2
        sampleMsg2).2 =
        { records :=
            [{ ID := 11, Contract := [9], Data := [7], TxHash := [10], LogIndex := 1,
               ChainID := "15001" },
             { ID := 22, Contract := [9], Data := [7], TxHash := [20], LogIndex := 2,
               ChainID := "15001" }],
          sequences := ["1000001", "2000002"] } ∧
      (handleMsgEventRecord sampleEnv (handleMsgEventRecord sampleEnv Store.empty sampleMsg2).2
        sampleMsg).2.sequences = ["2000002", "1000001"] ∧
      (handleMsgEventRecord sampleEnv (handleMsgEventRecord sampleEnv Store.empty sampleMsg).2
        sampleMsg2).2.records.Perm
        (handleMsgEventRecord sampleEnv (handleMsgEventRecord sampleEnv Store.empty sampleMsg2).2
          sampleMsg).2.records :=
  have h := commit_either_order sampleEnv Store.empty sampleMsg sampleMsg2
    { BlockNumber := 10 } { BlockNumber := 20 }
    { Id := 11, ContractAddress := [9], Data := [7] }
    { Id := 22, ContractAddress := [9], Data := [7] }
    (by decide) (by decide) (by decide) (by decide) (by decide) (by decide) (by decide)
    (by decide) (fun _ _ => rfl) (by decide) (by decide) (by decide) (by decide) (by decide)
    (by decide)
  ⟨h.2.1, h.2.2.2.1, by decide, h.2.2.2.2.2.2.2.1, h.2.2.2.2.2.2.2.2.1⟩

/-- C6: when `handleMsgEventRecord` succeeds, the store afterwards holds under `msg.ID` the
record built from the message (tx hash, log index, id, chain id) and the decoded log
(contract address, data), the sequence `receipt.BlockNumber * DefaultLogIndexUnit +
msg.LogIndex` is marked recorded, and the result carries exactly one event, with the
attributes module, record id, contract address, tx hash and log index. -/
theorem handleMsgEventRecord_success_effects (env : Env) (st : Store) (msg : MsgEventRecord)
    (h : (handleMsgEventRecord env st msg).1.IsOK = true) :
    ∃ receipt eventLog,
      env.GetConfirmedTxReceipt env.BlockTime msg.TxHash env.params.TxConfirmationTime
        = (some receipt, false) ∧
      env.DecodeStateSyncedEvent env.params.StateSenderAddress receipt msg.LogIndex
        = (some eventLog, false) ∧
      GetEventRecord (handleMsgEventRecord env st msg).2 msg.ID
        = some { ID := msg.ID, Contract := eventLog.ContractAddress, Data := eventLog.Data,
                 TxHash := msg.TxHash, LogIndex := msg.LogIndex, ChainID := msg.ChainID } ∧
      HasRecordSequence (handleMsgEventRecord env st msg).2
        (bigString (receipt.BlockNumber * env.DefaultLogIndexUnit + (msg.LogIndex : Int)))
        = true ∧
      (handleMsgEventRecord env st msg).1.Events =
        [ { Kind := EventType.Record
            Attributes :=
              [ (AttributeKey.Module, AttributeValue.Category),
                (AttributeKey.RecordID, AttributeValue.FormatUint msg.ID),
                (AttributeKey.RecordContract,
                  AttributeValue.AddressString eventLog.ContractAddress),
                (AttributeKey.RecordTxHash, AttributeValue.HashString msg.TxHash),
                (AttributeKey.RecordTxLogIndex, AttributeValue.FormatUint msg.LogIndex) ] } ] := by
  obtain ⟨receipt, eventLog, h1, h2, h3, h4, h5, h6, h7⟩ := handle_ok env st msg h
  refine ⟨receipt, eventLog, h3, h4, ?_⟩
  rw [handle_of_checks env st msg receipt eventLog h1 h2 h3 h4 h5 h6 h7]
  refine ⟨?_, ?_, rfl⟩
  · unfold GetEventRecord committedStore
    rw [SetRecordSequence_records]
    rw [← h5]
    exact find_filter_append st.records
      (NewEventRecord msg.TxHash msg.LogIndex (Uint64 eventLog.Id)
        eventLog.ContractAddress eventLog.Data msg.ChainID)
  · exact SetRecordSequence_has _ _

/-- Witness of C6 on the sample message and the empty store. -/
theorem handleMsgEventRecord_success_effects_witness :
    (handleMsgEventRecord sampleEnv Store.empty sampleMsg).1.IsOK = true ∧
    ∃ receipt eventLog,
      sampleEnv.GetConfirmedTxReceipt sampleEnv.BlockTime sampleMsg.TxHash
        sampleEnv.params.TxConfirmationTime = (some receipt, false) ∧
      sampleEnv.DecodeStateSyncedEvent sampleEnv.params.StateSenderAddress receipt
        sampleMsg.LogIndex = (some eventLog, false) ∧
      GetEventRecord (handleMsgEventRecord sampleEnv Store.empty sampleMsg).2 sampleMsg.ID
        = some { ID := sampleMsg.ID, Contract := eventLog.ContractAddress,
                 Data := eventLog.Data, TxHash := sampleMsg.TxHash,
                 LogIndex := sampleMsg.LogIndex, ChainID := sampleMsg.ChainID } ∧
      HasRecordSequence (handleMsgEventRecord sampleEnv Store.empty sampleMsg).2
        (bigString (receipt.BlockNumber * sampleEnv.DefaultLogIndexUnit
          + (sampleMsg.LogIndex : Int))) = true ∧
      (handleMsgEventRecord sampleEnv Store.empty sampleMsg).1.Events =
        [ { Kind := EventType.Record
            Attributes :=
              [ (AttributeKey.Module, AttributeValue.Category),
                (AttributeKey.RecordID, AttributeValue.FormatUint sampleMsg.ID),
                (AttributeKey.RecordContract,
                  AttributeValue.AddressString eventLog.ContractAddress),
                (AttributeKey.RecordTxHash, AttributeValue.HashString sampleMsg.TxHash),
                (AttributeKey.RecordTxLogIndex,
                  AttributeValue.FormatUint sampleMsg.LogIndex) ] } ] :=
  ⟨by decide, handleMsgEventRecord_success_effects sampleEnv Store.empty sampleMsg (by decide)⟩

/-! ## RootChainListener: claims -/

/-- Counterexample to C7 as stated: with confirmation time 60 at time 1700000000, a header
with timestamp `2 ^ 64 - 16` is removed by the flush loop (the `uint64` sum wraps to 44),
although `timestamp + confirmationTime <= t` is false. -/
theorem flushLoop_wrap_counterexample :
    flushLoop 60 1700000000 [{ Number := 7, Time := 18446744073709551600 }] none none
        = ([], some 7, some 7) ∧
      ¬ (18446744073709551600 + 60 ≤ 1700000000) := by
  decide

/-- C7 (amended): for every queue whose headers have `timestamp + confirmationTime` below
`2 ^ 64`, the flush loop removes exactly the maximal run of headers at the front that
satisfy `timestamp + confirmationTime <= t`, leaves the remaining headers queued in their
order, and yields `start` = number of the first removed header and `end` = number of the
last removed header (neither is set when nothing is removed). -/
theorem flushLoop_removes_confirmed_run (conf t : Nat) (queue : List Header)
    (hfit : ∀ h ∈ queue, h.Time + conf < 2 ^ 64) :
    ∃ removed rest,
      queue = removed ++ rest ∧
      (∀ h ∈ removed, h.Time + conf ≤ t) ∧
      (∀ h, rest.head? = some h → ¬ (h.Time + conf ≤ t)) ∧
      flushLoop conf t queue none none
        = (rest, removed.head?.map Header.Number, removed.getLast?.map Header.Number) := by
  refine ⟨queue.takeWhile (fun h => decide (h.Time + conf ≤ t)),
    queue.dropWhile (fun h => decide (h.Time + conf ≤ t)),
    (List.takeWhile_append_dropWhile _ _).symm, ?_, ?_, ?_⟩
  · intro h hh
    simpa using List.mem_takeWhile_imp hh
  · intro h hh
    have := List.head?_dropWhile_not (fun h => decide (h.Time + conf ≤ t)) queue
    rw [hh] at this
    simpa using this
  · rw [flushLoop_eq conf t queue none none hfit]
    simp

/-- Witness of C7 (amended): two confirmed headers followed by a recent one. -/
theorem flushLoop_removes_confirmed_run_witness :
    ∃ removed rest,
      [oldHeader 100, oldHeader 101, { Number := 102, Time := 990 }] = removed ++ rest ∧
      (∀ h ∈ removed, h.Time + 60 ≤ 1000) ∧
      (∀ h, rest.head? = some h → ¬ (h.Time + 60 ≤ 1000)) ∧
      flushLoop 60 1000 [oldHeader 100, oldHeader 101, { Number := 102, Time := 990 }] none none
        = (rest, removed.head?.map Header.Number, removed.getLast?.map Header.Number) :=
  flushLoop_removes_confirmed_run 60 1000
    [oldHeader 100, oldHeader 101, { Number := 102, Time := 990 }] (by decide)

/-- Counterexample to C8 as stated: with the stored cursor `2 ^ 64 - 1` and the confirmed
range `{5, 10}`, the `uint64` increment wraps and `ProcessHeader` queries from block 0,
where the claim gives `c + 1 = 2 ^ 64`, clamped to `toBlock = 10`. -/
theorem ProcessHeader_cursor_wrap_counterexample :
    ParseUint "18446744073709551615" = some 18446744073709551615 ∧
      ProcessHeader samplePenv
          { headerQueue := [oldHeader 5], lastRootBlock := some "18446744073709551615" }
          (oldHeader 10)
        = ({ headerQueue := [], lastRootBlock := some "10" }, some (0, 10)) ∧
      specRange (some 18446744073709551615) 5 10 = (10, 10) := by
  decide

/-- C8 (amended): for every confirmed `{start, end}` and cursor state whose stored value `c`
satisfies `c + 1 < 2 ^ 64`, the range `ProcessHeader` queries is `toBlock = end`,
`fromBlock = start` when no cursor is stored and `c + 1` otherwise, with `fromBlock =
toBlock` when `toBlock < fromBlock`; the cursor stored afterwards is `toBlock`. -/
theorem ProcessHeader_range (penv : ProcessEnv) (rl : RootChainListener) (newHeader : Header)
    (queue : List Header) (start end_ : Int)
    (hflush : flushLoop penv.confirmationTime penv.currentTime
      (rl.headerQueue ++ [newHeader]) none none = (queue, some start, some end_))
    (hget : penv.getErr = false ∨ rl.lastRootBlock = none)
    (hfit : ∀ c, rl.lastRootBlock.bind ParseUint = some c → c + 1 < 2 ^ 64) :
    ProcessHeader penv rl newHeader =
      ({ headerQueue := queue, lastRootBlock := some (bigString end_) },
        some (specRange (rl.lastRootBlock.bind ParseUint) start end_)) ∧
      (specRange (rl.lastRootBlock.bind ParseUint) start end_).2 = end_ := by
  exact ⟨ProcessHeader_eq_specRange penv rl newHeader queue start end_ hflush hget hfit, rfl⟩

/-- Witness of C8 (amended), the two scenarios of the specification: no cursor and
`{100, 105}` gives `fromBlock = 100`, `toBlock = 105` and cursor 105; cursor 105 and
`{103, 110}` gives `fromBlock = 106`, `toBlock = 110`. -/
theorem ProcessHeader_range_witness :
    (ProcessHeader samplePenv
        { headerQueue := [oldHeader 100, oldHeader 101, oldHeader 102, oldHeader 103,
            oldHeader 104], lastRootBlock := none } (oldHeader 105)
      = ({ headerQueue := [], lastRootBlock := some "105" }, some (100, 105))) ∧
    (ProcessHeader samplePenv
        { headerQueue := [oldHeader 103, oldHeader 104, oldHeader 105, oldHeader 106,
            oldHeader 107, oldHeader 108, oldHeader 109], lastRootBlock := some "105" }
        (oldHeader 110)
      = ({ headerQueue := [], lastRootBlock := some "110" }, some (106, 110))) :=
  ⟨(ProcessHeader_range samplePenv
      { headerQueue := [oldHeader 100, oldHeader 101, oldHeader 102, oldHeader 103,
          oldHeader 104], lastRootBlock := none } (oldHeader 105) [] 100 105
      (by decide) (by decide) (by decide)).1,
    (ProcessHeader_range samplePenv
      { headerQueue := [oldHeader 103, oldHeader 104, oldHeader 105, oldHeader 106,
          oldHeader 107, oldHeader 108, oldHeader 109], lastRootBlock := some "105" }
      (oldHeader 110) [] 103 110
      (by decide) (by decide) (by decide)).1⟩

/-- Counterexample to C9 as stated: with the stored cursor 105 and a confirmed range that
ends at block 60, `ProcessHeader` writes the cursor 60, which is below 105. -/
theorem ProcessHeader_cursor_regress_counterexample :
    ParseUint "105" = some 105 ∧
      ProcessHeader samplePenv { headerQueue := [oldHeader 50], lastRootBlock := some "105" }
          (oldHeader 60)
        = ({ headerQueue := [], lastRootBlock := some (bigString 60) }, some (60, 60)) ∧
      ¬ ((60 : Int) ≥ 105) := by
  decide

/-- C9 (amended): for every stored cursor value `c` and every confirmed `{start, end}` with
`end >= c`, the cursor value that `ProcessHeader` writes is `>= c`; the value written is
`end`. -/
theorem ProcessHeader_cursor_written (penv : ProcessEnv) (rl : RootChainListener) (newHeader : Header)
    (queue : List Header) (start end_ : Int) (stored : String) (c : Nat)
    (hflush : flushLoop penv.confirmationTime penv.currentTime
      (rl.headerQueue ++ [newHeader]) none none = (queue, some start, some end_))
    (hget : penv.getErr = false)
    (hstored : rl.lastRootBlock = some stored)
    (hc : ParseUint stored = some c)
    (hend : (c : Int) ≤ end_) :
    ∃ written : Int,
      (ProcessHeader penv rl newHeader).1.lastRootBlock = some (bigString written) ∧
      written = end_ ∧ written ≥ (c : Int) := by
  refine ⟨end_, ?_, rfl, hend⟩
  unfold ProcessHeader
  rw [hflush]
  simp only
  unfold blockRange
  rw [hstored]
  simp [hget, hc]

/-- Witness of C9 (amended): cursor 105 and the confirmed range `{106, 107}`. -/
theorem ProcessHeader_cursor_written_witness :
    ∃ written : Int,
      (ProcessHeader samplePenv
        { headerQueue := [oldHeader 106], lastRootBlock := some "105" }
        (oldHeader 107)).1.lastRootBlock = some (bigString written) ∧
      written = 107 ∧ written ≥ ((105 : Nat) : Int) :=
  ProcessHeader_cursor_written samplePenv
    { headerQueue := [oldHeader 106], lastRootBlock := some "105" } (oldHeader 107)
    [] 106 107 "105" 105 (by decide) (by decide) (by decide) (by decide) (by decide)

/-- Counterexample to C10 as stated: a first cycle commits `toBlock = 105` as the cursor;
a later cycle whose confirmed range is `{105, 105}` queries `fromBlock = 105`, which is
not greater than the committed 105. -/
theorem ProcessHeader_fromBlock_clamp_counterexample :
    ProcessHeader samplePenv { headerQueue := [], lastRootBlock := none } (oldHeader 105)
        = ({ headerQueue := [], lastRootBlock := some "105" }, some (105, 105)) ∧
      ProcessHeader samplePenv { headerQueue := [], lastRootBlock := some "105" }
          (oldHeader 105)
        = ({ headerQueue := [], lastRootBlock := some "105" }, some (105, 105)) ∧
      ¬ ((105 : Int) > 105) := by
  decide

/-- C10 (amended): after a cycle that computed a range and committed `toBlock = c` as the
cursor, with `0 <= c` and `c + 1 < 2 ^ 64`, every later range computation returns a
`fromBlock` strictly greater than `c`, as long as every later cycle that computes a range
has a confirmed range ending above `c` (with `end + 1 < 2 ^ 64`). -/
theorem ProcessHeader_later_fromBlock (penv1 : ProcessEnv) (rl : RootChainListener)
    (h1 : Header) (fromBlock1 c : Int) (steps : List (ProcessEnv × Header))
    (hcycle : (ProcessHeader penv1 rl h1).2 = some (fromBlock1, c))
    (h0 : 0 ≤ c) (hfit : c + 1 < 2 ^ 64)
    (hends : (cycles (ProcessHeader penv1 rl h1).1 steps).all (rangeEndsAbove c) = true) :
    (ProcessHeader penv1 rl h1).1.lastRootBlock = some (bigString c) ∧
      (cycles (ProcessHeader penv1 rl h1).1 steps).all (rangeStartsAbove c) = true := by
  have hcur := (ProcessHeader_range_le penv1 rl h1 fromBlock1 c hcycle).2
  exact ⟨hcur, cycles_start_above c h0 steps _ c hcur (le_refl c) hfit hends⟩

/-- Witness of C10 (amended): the first cycle commits 105; three later ticks confirm
`{106, 106}`, nothing (a recent header), and `{107, 108}`. -/
theorem ProcessHeader_later_fromBlock_witness :
    (ProcessHeader samplePenv { headerQueue := [], lastRootBlock := none }
        (oldHeader 105)).1.lastRootBlock = some (bigString 105) ∧
      (cycles (ProcessHeader samplePenv { headerQueue := [], lastRootBlock := none }
          (oldHeader 105)).1
        [(samplePenv, oldHeader 106),
          ({ currentTime := 1000, confirmationTime := 60, getErr := false },
            { Number := 107, Time := 990 }),
          ({ currentTime := 2000, confirmationTime := 60, getErr := false },
            { Number := 108, Time := 1000 })]).all (rangeStartsAbove 105) = true :=
  ProcessHeader_later_fromBlock samplePenv { headerQueue := [], lastRootBlock := none }
    (oldHeader 105) 105 105
    [(samplePenv, oldHeader 106),
      ({ currentTime := 1000, confirmationTime := 60, getErr := false },
        { Number := 107, Time := 990 }),
      ({ currentTime := 2000, confirmationTime := 60, getErr := false },
        { Number := 108, Time := 1000 })]
    (by decide) (by decide) (by decide) (by decide)

/-! ## RootChainListener: dispatch claims -/

/-- Counterexample to C11 as stated: a `Staked` log of another signer at an active
validator whose rank delay is the largest `time.Duration`, with stagger 24: the `int64`
sum wraps, and the task is submitted with delay `-9223372036854775785`, not with
`d + D = 9223372036854775831`. -/
theorem dispatchEvent_Staked_wrap_counterexample :
    (maxDelayNode.UnpackLog "Staked" stakedLog).1.SignerPubkey ≠ maxDelayNode.GetPubKey.drop 1 ∧
      maxDelayNode.CalculateTaskDelay = (true, 9223372036854775807) ∧
      (dispatchEvent maxDelayNode "Staked" stakedLog).tasks =
        [{ Name := "sendValidatorJoinToHeimdall", eventName := "Staked", logBytes := stakedLog,
           RetryCount := 3, delay := -9223372036854775785 }] ∧
      (-9223372036854775785 : Int) ≠ 9223372036854775807 + maxDelayNode.TaskDelayBetweenEachVal := by
  decide

/-- C11 (amended): for every `Staked` event, when the signer public key of the event equals
the public key of the node (without its leading format byte, `pubkey[1:]`) exactly one
`sendValidatorJoinToHeimdall` task is submitted, with delay `TaskDelayBetweenEachVal`,
whether or not the node is an active validator; otherwise, when the node is an active
validator with rank delay `d`, exactly one task is submitted, with delay
`d + TaskDelayBetweenEachVal`, provided that sum is within the `int64` range of a
`time.Duration`; otherwise no task is submitted. -/
theorem dispatchEvent_Staked (node : BroadcastEnv) (vLog : Log)
    (hfit : -2 ^ 63 ≤ node.CalculateTaskDelay.2 + node.TaskDelayBetweenEachVal ∧
      node.CalculateTaskDelay.2 + node.TaskDelayBetweenEachVal < 2 ^ 63) :
    (dispatchEvent node "Staked" vLog).panicked = false ∧
      (dispatchEvent node "Staked" vLog).tasks =
        if (node.UnpackLog "Staked" vLog).1.SignerPubkey = node.GetPubKey.drop 1 then
          [{ Name := "sendValidatorJoinToHeimdall", eventName := "Staked", logBytes := vLog,
             RetryCount := 3, delay := node.TaskDelayBetweenEachVal }]
        else if node.CalculateTaskDelay.1 = true then
          [{ Name := "sendValidatorJoinToHeimdall", eventName := "Staked", logBytes := vLog,
             RetryCount := 3,
             delay := node.CalculateTaskDelay.2 + node.TaskDelayBetweenEachVal }]
        else [] := by
  have hwrap : wrapInt64 (node.CalculateTaskDelay.2 + node.TaskDelayBetweenEachVal)
      = node.CalculateTaskDelay.2 + node.TaskDelayBetweenEachVal := by
    unfold wrapInt64
    omega
  unfold dispatchEvent
  simp only
  split_ifs <;> simp_all [sendTaskWithDelay, Broadcast.nothing]

/-- Witness of C11 (amended): a `Staked` log of another signer at the sample node, an
active validator with rank delay 48 and stagger 24. -/
theorem dispatchEvent_Staked_witness :
    (dispatchEvent sampleNode "Staked" stakedLog).panicked = false ∧
      (dispatchEvent sampleNode "Staked" stakedLog).tasks =
        if (sampleNode.UnpackLog "Staked" stakedLog).1.SignerPubkey = sampleNode.GetPubKey.drop 1
        then
          [{ Name := "sendValidatorJoinToHeimdall", eventName := "Staked",
             logBytes := stakedLog, RetryCount := 3,
             delay := sampleNode.TaskDelayBetweenEachVal }]
        else if sampleNode.CalculateTaskDelay.1 = true then
          [{ Name := "sendValidatorJoinToHeimdall", eventName := "Staked",
             logBytes := stakedLog, RetryCount := 3,
             delay := sampleNode.CalculateTaskDelay.2 + sampleNode.TaskDelayBetweenEachVal }]
        else [] :=
  dispatchEvent_Staked sampleNode stakedLog (by decide)

/-- C12: for every `StateSynced` event a task is submitted exactly when the node is an
active validator, and its delay is the rank delay returned by `CalculateTaskDelay`;
nothing of the event, of the node's key or of its address enters, so there is no
immediate path, and a node outside the active validator set submits no task. -/
theorem dispatchEvent_StateSynced (node : BroadcastEnv) (vLog : Log) :
    (dispatchEvent node "StateSynced" vLog).panicked = false ∧
      (dispatchEvent node "StateSynced" vLog).tasks =
        if node.CalculateTaskDelay.1 = true then
          [{ Name := "sendStateSyncedToHeimdall", eventName := "StateSynced", logBytes := vLog,
             RetryCount := 3, delay := node.CalculateTaskDelay.2 }]
        else [] := by
  unfold dispatchEvent
  simp only
  split_ifs <;> simp_all [sendTaskWithDelay, Broadcast.nothing]

/-- Counterexample to C13 as stated: a `StakeUpdate` event of validator `2 ^ 64 + 5` at a
node that is validator 5 and an active validator with rank delay 48.  The node is not the
subject of the event, so the relay rule gives the rank delay 48; the code asks
`IsEventSender` about the low 64 bits of the id, 5, and submits with delay 0. -/
theorem dispatchEvent_wide_validator_counterexample :
    (wideValidatorNode.UnpackLog "StakeUpdate" { Topics := [[4]], Data := [] }).1.ValidatorId
        = some 18446744073709551621 ∧
      isSubjectValidator wideValidatorNode 18446744073709551621 = false ∧
      (dispatchEvent wideValidatorNode "StakeUpdate" { Topics := [[4]], Data := [] }).tasks =
        [{ Name := "sendStakeUpdateToHeimdall", eventName := "StakeUpdate",
           logBytes := { Topics := [[4]], Data := [] }, RetryCount := 3, delay := 0 }] ∧
      subjectPolicy (isSubjectValidator wideValidatorNode 18446744073709551621)
          wideValidatorNode "sendStakeUpdateToHeimdall" "StakeUpdate"
          { Topics := [[4]], Data := [] } =
        [{ Name := "sendStakeUpdateToHeimdall", eventName := "StakeUpdate",
           logBytes := { Topics := [[4]], Data := [] }, RetryCount := 3, delay := 48 }] := by
  decide

/-- C13 (amended): for every `StakeUpdate` or `UnstakeInit` event whose validator id is a
number from `0` to `2 ^ 64 - 1`, and for every `SignerChange` or `TopUpFee` event, the
tasks follow the relay rule: delay 0 when the node is the subject of the event (the
validator id is the node's for `StakeUpdate` and `UnstakeInit`, the signer public key
equals the node's for `SignerChange`, the address of the event equals the node's for
`TopUpFee`), else the rank delay when the node is an active validator, else no task. -/
theorem dispatchEvent_subject_policy (node : BroadcastEnv) (vLog : Log) :
    (∀ validatorId, (node.UnpackLog "StakeUpdate" vLog).1.ValidatorId = some validatorId →
        0 ≤ validatorId → validatorId < 2 ^ 64 →
        dispatchEvent node "StakeUpdate" vLog =
          { tasks := subjectPolicy (isSubjectValidator node validatorId) node
              "sendStakeUpdateToHeimdall" "StakeUpdate" vLog,
            panicked := false }) ∧
      (∀ validatorId, (node.UnpackLog "UnstakeInit" vLog).1.ValidatorId = some validatorId →
        0 ≤ validatorId → validatorId < 2 ^ 64 →
        dispatchEvent node "UnstakeInit" vLog =
          { tasks := subjectPolicy (isSubjectValidator node validatorId) node
              "sendUnstakeInitToHeimdall" "UnstakeInit" vLog,
            panicked := false }) ∧
      dispatchEvent node "SignerChange" vLog =
        { tasks := subjectPolicy
            (decide ((node.UnpackLog "SignerChange" vLog).1.SignerPubkey = node.GetPubKey.drop 1))
            node "sendSignerChangeToHeimdall" "SignerChange" vLog,
          panicked := false } ∧
      dispatchEvent node "TopUpFee" vLog =
        { tasks := subjectPolicy
            (decide ((node.UnpackLog "TopUpFee" vLog).1.Signer = node.GetAddress))
            node "sendTopUpFeeToHeimdall" "TopUpFee" vLog,
          panicked := false } := by
  have hsub : ∀ validatorId : Int, 0 ≤ validatorId → validatorId < 2 ^ 64 →
      isSubjectValidator node validatorId = node.IsEventSender (Uint64 validatorId) := by
    intro validatorId h0 hlt
    have hnat : Uint64 validatorId = validatorId.toNat := by
      unfold Uint64 uint64Size
      have h1 : validatorId.natAbs = validatorId.toNat := by omega
      rw [h1]
      exact Nat.mod_eq_of_lt (by omega)
    unfold isSubjectValidator
    rw [hnat]
    have hrange : decide (0 ≤ validatorId ∧ validatorId < 2 ^ 64) = true :=
      decide_eq_true ⟨h0, hlt⟩
    rw [hrange, Bool.true_and]
  refine ⟨?_, ?_, ?_, ?_⟩
  · intro validatorId h h0 hlt
    rw [hsub validatorId h0 hlt]
    unfold dispatchEvent subjectPolicy
    simp only [h]
    split_ifs <;> simp_all [sendTaskWithDelay, Broadcast.nothing]
  · intro validatorId h h0 hlt
    rw [hsub validatorId h0 hlt]
    unfold dispatchEvent subjectPolicy
    simp only [h]
    split_ifs <;> simp_all [sendTaskWithDelay, Broadcast.nothing]
  · unfold dispatchEvent subjectPolicy
    simp only
    split_ifs <;> simp_all [sendTaskWithDelay, Broadcast.nothing]
  · unfold dispatchEvent subjectPolicy
    simp only
    split_ifs <;> simp_all [sendTaskWithDelay, Broadcast.nothing]

/-- Witness of C13 (amended): a `StakeUpdate` log of validator 9 at the sample node, which
is an active validator with rank delay 48 and is not validator 9. -/
theorem dispatchEvent_subject_policy_witness :
    dispatchEvent sampleNode "StakeUpdate" { Topics := [[4]], Data := [] } =
      { tasks := [{ Name := "sendStakeUpdateToHeimdall", eventName := "StakeUpdate",
                    logBytes := { Topics := [[4]], Data := [] }, RetryCount := 3,
                    delay := 48 }],
        panicked := false } :=
  (dispatchEvent_subject_policy sampleNode { Topics := [[4]], Data := [] }).1 9 rfl
    (by decide) (by decide)

/-- C14: for every `NewHeaderBlock` event, whatever the node's key, address and validator
status, exactly one `sendCheckpointAckToHeimdall` task is submitted, with delay 0. -/
theorem dispatchEvent_NewHeaderBlock (node : BroadcastEnv) (vLog : Log) :
    dispatchEvent node "NewHeaderBlock" vLog =
      { tasks := [{ Name := "sendCheckpointAckToHeimdall", eventName := "NewHeaderBlock",
                    logBytes := vLog, RetryCount := 3, delay := 0 }],
        panicked := false } := by
  unfold dispatchEvent
  simp [sendTaskWithDelay]

/-! ## RootChainListener: cycle claims -/

/-- Counterexample to C15 as stated: the fetch for the confirmed range `[100, 105]` fails;
the cursor already holds 105, and the next cycle that flushes queries `[106, 106]`, which
does not cover `[100, 105]`. -/
theorem ProcessHeaderAndBroadcast_failed_fetch_counterexample :
    failedFetchNode.FilterLogs 100 105 = ([], true) ∧
      ProcessHeaderAndBroadcast samplePenv failedFetchNode
          { headerQueue := [oldHeader 100, oldHeader 101, oldHeader 102, oldHeader 103,
              oldHeader 104], lastRootBlock := none } (oldHeader 105)
        = ({ headerQueue := [], lastRootBlock := some "105" }, some (100, 105),
            Broadcast.nothing) ∧
      ProcessHeaderAndBroadcast samplePenv sampleNode
          { headerQueue := [], lastRootBlock := some "105" } (oldHeader 106)
        = ({ headerQueue := [], lastRootBlock := some "106" }, some (106, 106),
            Broadcast.nothing) ∧
      ¬ ((106 : Int) ≤ 100 ∧ (105 : Int) ≤ 106) := by
  decide

/-- C15 (amended): when the log fetch for a confirmed range `[fromBlock, toBlock]` fails,
the cycle submits no task and the cursor, written before the fetch, holds `toBlock`; the
next cycle that flushes (its confirmed range ending above `toBlock`, with
`0 <= toBlock`, `toBlock + 1 < 2 ^ 64` and a storage read that does not fail) queries
from `toBlock + 1`, above every block of the failed range: that range is not queried
again. -/
theorem ProcessHeaderAndBroadcast_failed_fetch (penv1 penv2 : ProcessEnv)
    (node1 node2 : BroadcastEnv) (rl : RootChainListener) (h1 h2 : Header)
    (fromBlock1 c : Int) (logs : List Log) (queue : List Header) (start2 end2 : Int)
    (hcycle : (ProcessHeader penv1 rl h1).2 = some (fromBlock1, c))
    (hfail : node1.FilterLogs fromBlock1 c = (logs, true))
    (hflush : flushLoop penv2.confirmationTime penv2.currentTime
      ((ProcessHeader penv1 rl h1).1.headerQueue ++ [h2]) none none
      = (queue, some start2, some end2))
    (hget : penv2.getErr = false)
    (h0 : 0 ≤ c) (hfit : c + 1 < 2 ^ 64) (hend : c < end2) :
    (ProcessHeaderAndBroadcast penv1 node1 rl h1).2.2 = Broadcast.nothing ∧
      (ProcessHeaderAndBroadcast penv1 node1 rl h1).1.lastRootBlock = some (bigString c) ∧
      (ProcessHeaderAndBroadcast penv2 node2 (ProcessHeaderAndBroadcast penv1 node1 rl h1).1
        h2).2.1 = some (c + 1, end2) ∧
      fromBlock1 ≤ c ∧ c < c + 1 := by
  obtain ⟨hle, hcur⟩ := ProcessHeader_range_le penv1 rl h1 fromBlock1 c hcycle
  have hfirst : ProcessHeaderAndBroadcast penv1 node1 rl h1 =
      ((ProcessHeader penv1 rl h1).1, some (fromBlock1, c), Broadcast.nothing) := by
    unfold ProcessHeaderAndBroadcast
    rcases hp : ProcessHeader penv1 rl h1 with ⟨rl1, range⟩
    rw [hp] at hcycle
    simp only at hcycle
    subst hcycle
    simp [queryAndBroadcastEvents, hfail]
  have hsecond := ProcessHeader_after_commit penv2 (ProcessHeader penv1 rl h1).1 h2 c queue
    start2 end2 hcur hflush hget h0 hfit hend
  refine ⟨by rw [hfirst], by rw [hfirst]; exact hcur, ?_, hle, by omega⟩
  rw [hfirst]
  unfold ProcessHeaderAndBroadcast
  simp only [hsecond]

/-- Witness of C15 (amended): the failed fetch of `[100, 105]` followed by a cycle that
confirms block 106. -/
theorem ProcessHeaderAndBroadcast_failed_fetch_witness :
    (ProcessHeaderAndBroadcast samplePenv failedFetchNode
        { headerQueue := [oldHeader 100], lastRootBlock := none } (oldHeader 105)).2.2
        = Broadcast.nothing ∧
      (ProcessHeaderAndBroadcast samplePenv failedFetchNode
        { headerQueue := [oldHeader 100], lastRootBlock := none } (oldHeader 105)).1.lastRootBlock
        = some (bigString 105) ∧
      (ProcessHeaderAndBroadcast samplePenv sampleNode
        (ProcessHeaderAndBroadcast samplePenv failedFetchNode
          { headerQueue := [oldHeader 100], lastRootBlock := none } (oldHeader 105)).1
        (oldHeader 106)).2.1 = some (105 + 1, 106) ∧
      (100 : Int) ≤ 105 ∧ (105 : Int) < 105 + 1 :=
  ProcessHeaderAndBroadcast_failed_fetch samplePenv samplePenv failedFetchNode sampleNode
    { headerQueue := [oldHeader 100], lastRootBlock := none } (oldHeader 105) (oldHeader 106)
    100 105 [] [] 106 106 (by decide) (by decide) (by decide) (by decide) (by decide)
    (by decide) (by decide)

/-- Counterexample to C16 as stated: with two ABIs that both have an event with topic
`[1]`, one `NewHeaderBlock` log submits two tasks. -/
theorem processLog_shared_topic_counterexample :
    sharedTopicNode.EventByID rootChainABI [1] = some "NewHeaderBlock" ∧
      sharedTopicNode.EventByID otherRootABI [1] = some "NewHeaderBlock" ∧
      (processLog sharedTopicNode headerBlockLog).tasks.length = 2 := by
  decide

/-- C16 (amended): a log is dispatched once for every ABI of the list, in list order,
that has an event with the log's topic.  When exactly one ABI has such an event the log is
dispatched according to it and at most one task is submitted; a log whose topic matches
no ABI submits no task. -/
theorem processLog_dispatch_per_ABI (node : BroadcastEnv) (vLog : Log) (topic : Bytes)
    (more : List Bytes) (htopic : vLog.Topics = topic :: more) :
    processLog node vLog =
        dispatchAll node vLog
          (node.abis.filterMap (fun abiObject => node.EventByID abiObject topic)) ∧
      (∀ name,
        node.abis.filterMap (fun abiObject => node.EventByID abiObject topic) = [name] →
        processLog node vLog = dispatchEvent node name vLog ∧
          (processLog node vLog).tasks.length ≤ 1) ∧
      ((∀ abiObject ∈ node.abis, node.EventByID abiObject topic = none) →
        processLog node vLog = Broadcast.nothing) := by
  have hmain : processLog node vLog =
      dispatchAll node vLog
        (node.abis.filterMap (fun abiObject => node.EventByID abiObject topic)) := by
    unfold processLog
    rw [htopic]
    exact processABIs_eq_dispatchAll node topic vLog node.abis
  refine ⟨hmain, ?_, ?_⟩
  · intro name hname
    have : processLog node vLog = dispatchEvent node name vLog := by
      rw [hmain, hname]
      unfold dispatchAll dispatchAll
      exact Broadcast.andThen_nothing _
    exact ⟨this, this ▸ dispatchEvent_tasks_length node name vLog⟩
  · intro hnone
    rw [hmain]
    have : node.abis.filterMap (fun abiObject => node.EventByID abiObject topic) = [] := by
      rw [List.filterMap_eq_nil_iff]
      exact hnone
    rw [this]
    rfl

/-- Witness of C16 (amended): a `Staked` log at the sample node, whose three ABIs have
disjoint topics. -/
theorem processLog_dispatch_per_ABI_witness :
    processLog sampleNode stakedLog = dispatchEvent sampleNode "Staked" stakedLog ∧
      (processLog sampleNode stakedLog).tasks.length ≤ 1 :=
  (processLog_dispatch_per_ABI sampleNode stakedLog [3] [] rfl).2.1 "Staked" (by decide)

/-- C17: a `Staked` log whose payload fails to unpack, at a node that is an active
validator with rank delay 48 and stagger 24: the error is only logged, the zero-valued
event is dispatched, and the task `sendValidatorJoinToHeimdall` is submitted with delay
72. -/
theorem queryAndBroadcastEvents_failed_unpack_still_submits :
    (failedUnpackNode.UnpackLog "Staked" stakedLog).2 = true ∧
      queryAndBroadcastEvents failedUnpackNode 100 105 =
        { tasks := [{ Name := "sendValidatorJoinToHeimdall", eventName := "Staked",
                      logBytes := stakedLog, RetryCount := 3, delay := 72 }],
          panicked := false } := by
  decide

/-! ## Clerk: numeric claims -/

/-- C18: the on-chain id `2 ^ 64 + 5` is a different number from the claimed id `5`, checks
1 to 4 pass, and the handler commits: it compares `eventLog.Id.Uint64()`, the low 64
bits, with `msg.ID`, and stores the record under id 5. -/
theorem handleMsgEventRecord_wide_id_commits :
    (wideIdEnv.DecodeStateSyncedEvent wideIdEnv.params.StateSenderAddress
        { BlockNumber := 10 } sampleMsg5.LogIndex).1.map (fun eventLog => eventLog.Id)
        = some 18446744073709551621 ∧
      (18446744073709551621 : Int) ≠ ((sampleMsg5.ID : Nat) : Int) ∧
      handleMsgEventRecord wideIdEnv Store.empty sampleMsg5 =
        ({ Code := none,
           Events := [recordEvent sampleMsg5
             { Id := 18446744073709551621, ContractAddress := [9], Data := [7] }] },
         { records := [{ ID := 5, Contract := [9], Data := [7], TxHash := [10], LogIndex := 1,
                         ChainID := "15001" }],
           sequences := ["1000001"] }) := by
  decide

/-- C19: for log indices inside the window (`logIndex < DefaultLogIndexUnit`), the sequence
`BlockNumber * DefaultLogIndexUnit + LogIndex` is ordered by (block number, log index)
lexicographically, so that different (block number, log index) pairs have different
sequences. -/
theorem sequenceOf_lexicographic (env : Env) (r1 r2 : Receipt) (m1 m2 : MsgEventRecord)
    (h1 : (m1.LogIndex : Int) < env.DefaultLogIndexUnit)
    (h2 : (m2.LogIndex : Int) < env.DefaultLogIndexUnit) :
    (sequenceOf env r1 m1 < sequenceOf env r2 m2 ↔
        r1.BlockNumber < r2.BlockNumber ∨
          (r1.BlockNumber = r2.BlockNumber ∧ m1.LogIndex < m2.LogIndex)) ∧
      ((r1.BlockNumber, m1.LogIndex) ≠ (r2.BlockNumber, m2.LogIndex) →
        sequenceOf env r1 m1 ≠ sequenceOf env r2 m2) := by
  unfold sequenceOf
  have hi1 : (0 : Int) ≤ (m1.LogIndex : Int) := Int.ofNat_nonneg _
  have hi2 : (0 : Int) ≤ (m2.LogIndex : Int) := Int.ofNat_nonneg _
  have hu : (0 : Int) < env.DefaultLogIndexUnit := by omega
  have key : ∀ (b b' : Int) (i i' : Int), 0 ≤ i → i < env.DefaultLogIndexUnit → 0 ≤ i' →
      b < b' → b * env.DefaultLogIndexUnit + i < b' * env.DefaultLogIndexUnit + i' := by
    intro b b' i i' _ hi hi' hb
    have hstep : (b + 1) * env.DefaultLogIndexUnit ≤ b' * env.DefaultLogIndexUnit :=
      mul_le_mul_of_nonneg_right (by omega) (le_of_lt hu)
    have hexp : (b + 1) * env.DefaultLogIndexUnit
        = b * env.DefaultLogIndexUnit + env.DefaultLogIndexUnit := by ring
    omega
  constructor
  · constructor
    · intro hlt
      rcases lt_trichotomy r1.BlockNumber r2.BlockNumber with hb | hb | hb
      · exact Or.inl hb
      · right
        refine ⟨hb, ?_⟩
        rw [hb] at hlt
        omega
      · exfalso
        have := key r2.BlockNumber r1.BlockNumber m2.LogIndex m1.LogIndex hi2 h2 hi1 hb
        omega
    · rintro (hb | ⟨hb, hi⟩)
      · exact key r1.BlockNumber r2.BlockNumber m1.LogIndex m2.LogIndex hi1 h1 hi2 hb
      · rw [hb]
        omega
  · intro hne heq
    rcases lt_trichotomy r1.BlockNumber r2.BlockNumber with hb | hb | hb
    · have := key r1.BlockNumber r2.BlockNumber m1.LogIndex m2.LogIndex hi1 h1 hi2 hb
      omega
    · rw [hb] at heq
      apply hne
      have : m1.LogIndex = m2.LogIndex := by omega
      rw [hb, this]
    · have := key r2.BlockNumber r1.BlockNumber m2.LogIndex m1.LogIndex hi2 h2 hi1 hb
      omega

/-- Witness of C19: block 10, log index 1 against block 20, log index 2, with the unit
100000. -/
theorem sequenceOf_lexicographic_witness :
    (sequenceOf sampleEnv { BlockNumber := 10 } sampleMsg
        < sequenceOf sampleEnv { BlockNumber := 20 } sampleMsg2 ↔
        (10 : Int) < 20 ∨ ((10 : Int) = 20 ∧ sampleMsg.LogIndex < sampleMsg2.LogIndex)) ∧
      ((((10 : Int), sampleMsg.LogIndex) ≠ ((20 : Int), sampleMsg2.LogIndex)) →
        sequenceOf sampleEnv { BlockNumber := 10 } sampleMsg
          ≠ sequenceOf sampleEnv { BlockNumber := 20 } sampleMsg2) :=
  sequenceOf_lexicographic sampleEnv { BlockNumber := 10 } { BlockNumber := 20 }
    sampleMsg sampleMsg2 (by decide) (by decide)

/-! ## RootChainListener: frame claim -/

/-- Counterexample to C20 as stated: the front header has timestamp `2 ^ 64 - 16`, so with
confirmation time 60 and current time 1700000000 `front.Time + confirmationTime > now`
holds, yet the `uint64` sum wraps to 44 and `ProcessHeader` flushes the header, writes the
cursor 7 and queries `[7, 7]`. -/
theorem ProcessHeader_unconfirmed_wrap_counterexample :
    lateHeader.Time + latePenv.confirmationTime > latePenv.currentTime ∧
      ProcessHeader latePenv { headerQueue := [], lastRootBlock := none } lateHeader
        = ({ headerQueue := [], lastRootBlock := some "7" }, some (7, 7)) := by
  decide

/-- C20 (amended): when, after the new header is appended, the front header of the queue
is not yet confirmed (`front.Time + confirmationTime > now`) and
`front.Time + confirmationTime` is below `2 ^ 64`, `ProcessHeader` leaves the queue equal
to the old queue with the new header appended, does not write the cursor, queries no
logs and submits no task. -/
theorem ProcessHeader_unconfirmed_front (penv : ProcessEnv) (node : BroadcastEnv)
    (rl : RootChainListener) (newHeader front : Header)
    (hfront : (rl.headerQueue ++ [newHeader]).head? = some front)
    (hfit : front.Time + penv.confirmationTime < 2 ^ 64)
    (hnew : front.Time + penv.confirmationTime > penv.currentTime) :
    ProcessHeaderAndBroadcast penv node rl newHeader =
      ({ headerQueue := rl.headerQueue ++ [newHeader], lastRootBlock := rl.lastRootBlock },
        none, Broadcast.nothing) := by
  have hflush : flushLoop penv.confirmationTime penv.currentTime
      (rl.headerQueue ++ [newHeader]) none none = (rl.headerQueue ++ [newHeader], none, none) := by
    cases hq : rl.headerQueue ++ [newHeader] with
    | nil => rfl
    | cons h tl =>
      rw [hq] at hfront
      simp only [List.head?_cons, Option.some.injEq] at hfront
      subst hfront
      unfold flushLoop
      have hmod : (h.Time + penv.confirmationTime) % uint64Size
          = h.Time + penv.confirmationTime := Nat.mod_eq_of_lt hfit
      rw [hmod, if_pos hnew]
  unfold ProcessHeaderAndBroadcast ProcessHeader
  rw [hflush]

/-- Witness of C20 (amended): a recent header (time 990, confirmation time 60, now 1000)
behind nothing. -/
theorem ProcessHeader_unconfirmed_front_witness :
    ProcessHeaderAndBroadcast samplePenv sampleNode
        { headerQueue := [{ Number := 101, Time := 990 }], lastRootBlock := some "100" }
        { Number := 102, Time := 995 }
      = ({ headerQueue := [{ Number := 101, Time := 990 }, { Number := 102, Time := 995 }],
           lastRootBlock := some "100" }, none, Broadcast.nothing) :=
  ProcessHeader_unconfirmed_front samplePenv sampleNode
    { headerQueue := [{ Number := 101, Time := 990 }], lastRootBlock := some "100" }
    { Number := 102, Time := 995 } { Number := 101, Time := 990 }
    (by decide) (by decide) (by decide)

end Heimdall
